import Mathlib

namespace TxExplainer

/-!
Verification development for the transaction-to-semantics decoding pipeline
of the sui-tx-explainer repository.

The repository contains two near-identical route handlers:
  * an object-model (Sui) handler in `src/app/api/explain/[txHash]/route.ts`
  * a byte-oriented (Arbitrum) handler (the unnamed source file)

Everything below is a shallow embedding of the pure decoding logic of those
files: JavaScript strings become `String` (processed as `List Char`),
JavaScript `BigInt` values become `Int` (with `Int.tdiv` / `Int.tmod` for the
truncating division of `BigInt`), `undefined` / `null` become `Option`,
and a thrown exception becomes `Option.none` of the surrounding computation.
-/

/-! ## JavaScript string and number primitives -/

/-- Whitespace recognised by the JavaScript trimming performed by
`BigInt(string)` and `parseInt` before reading a numeric literal
(ASCII whitespace plus no-break space). -/
def isJsWhitespace (c : Char) : Bool :=
  c = ' ' || c = '\t' || c = '\n' || c = '\r' ||
  c = Char.ofNat 11 || c = Char.ofNat 12 || c = Char.ofNat 160

/-- Trim leading and trailing JavaScript whitespace from a character list. -/
def jsTrimChars (l : List Char) : List Char :=
  ((l.dropWhile isJsWhitespace).reverse.dropWhile isJsWhitespace).reverse

/-- The character for a single decimal digit (`0 ↦ '0'`, …, `9 ↦ '9'`). -/
def decDigitChar (d : Nat) : Char :=
  Char.ofNat (48 + d)

/-- Fuel-driven little-endian decimal digit expansion of a natural number;
fuel `n` is always enough for input `n`. -/
def natDecCore : Nat → Nat → List Nat
  | 0, _ => []
  | fuel + 1, n => if n = 0 then [] else n % 10 :: natDecCore fuel (n / 10)

/-- Little-endian decimal digits of `n` (empty for `0`). -/
def natDecDigits (n : Nat) : List Nat :=
  natDecCore n n

/-- Value of a little-endian decimal digit list. -/
def decValLE : List Nat → Nat
  | [] => 0
  | d :: ds => d + 10 * decValLE ds

/-- Big-endian character rendering of a natural number in base 10, as
produced by JavaScript `BigInt.prototype.toString(10)` on a non-negative
value (so `0` renders as `"0"`). -/
def natToDecCharsBE (n : Nat) : List Char :=
  if n = 0 then ['0'] else ((natDecDigits n).map decDigitChar).reverse

/-- `String` form of `natToDecCharsBE`. -/
def natToDecString (n : Nat) : String :=
  ⟨natToDecCharsBE n⟩

/-- JavaScript `BigInt.prototype.toString(10)`: sign followed by the decimal
digits of the absolute value. -/
def intToDecString (v : Int) : String :=
  if v < 0 then ⟨'-' :: natToDecCharsBE v.natAbs⟩ else natToDecString v.toNat

/-- Big-endian value of a character list all of whose members are decimal
digit characters (used to read a rendered number back). -/
def decCharsValBE (l : List Char) : Nat :=
  l.foldl (fun a c => 10 * a + (c.toNat - 48)) 0

/-- Decimal digit character value, `none` on anything else. -/
def decDigitVal? (c : Char) : Option Nat :=
  if 48 ≤ c.toNat ∧ c.toNat ≤ 57 then some (c.toNat - 48) else none

/-- Hexadecimal digit character value (both cases), `none` on anything else. -/
def hexDigitVal? (c : Char) : Option Nat :=
  if 48 ≤ c.toNat ∧ c.toNat ≤ 57 then some (c.toNat - 48)
  else if 97 ≤ c.toNat ∧ c.toNat ≤ 102 then some (c.toNat - 87)
  else if 65 ≤ c.toNat ∧ c.toNat ≤ 70 then some (c.toNat - 55)
  else none

/-- Octal digit character value, `none` on anything else. -/
def octDigitVal? (c : Char) : Option Nat :=
  if 48 ≤ c.toNat ∧ c.toNat ≤ 55 then some (c.toNat - 48) else none

/-- Binary digit character value, `none` on anything else. -/
def binDigitVal? (c : Char) : Option Nat :=
  if 48 ≤ c.toNat ∧ c.toNat ≤ 49 then some (c.toNat - 48) else none

/-- Read a digit run in the given base, failing on an invalid character. -/
def parseDigitsAux (base : Nat) (dv : Char → Option Nat) :
    List Char → Nat → Option Nat
  | [], acc => some acc
  | c :: cs, acc =>
    match dv c with
    | none => none
    | some d => parseDigitsAux base dv cs (base * acc + d)

/-- Read a non-empty digit run in the given base (JavaScript requires at
least one digit after an optional radix marker). -/
def parseDigits (base : Nat) (dv : Char → Option Nat) (l : List Char) :
    Option Nat :=
  match l with
  | [] => none
  | _ :: _ => parseDigitsAux base dv l 0

/-- `StringToBigInt` on an already-trimmed character list, per the
ECMAScript `StringIntegerLiteral` grammar: empty means `0`; a sign is only
allowed for decimal literals; `0x` / `0o` / `0b` select the radix; a thrown
`SyntaxError` is `none`. -/
def jsBigIntChars? (l : List Char) : Option Int :=
  match l with
  | [] => some 0
  | a :: rest =>
    if a = '-' then (parseDigits 10 decDigitVal? rest).map fun n => -Int.ofNat n
    else if a = '+' then (parseDigits 10 decDigitVal? rest).map Int.ofNat
    else if a = '0' then
      match rest with
      | [] => some 0
      | c :: rest2 =>
        if c = 'x' || c = 'X' then (parseDigits 16 hexDigitVal? rest2).map Int.ofNat
        else if c = 'o' || c = 'O' then (parseDigits 8 octDigitVal? rest2).map Int.ofNat
        else if c = 'b' || c = 'B' then (parseDigits 2 binDigitVal? rest2).map Int.ofNat
        else (parseDigits 10 decDigitVal? (a :: c :: rest2)).map Int.ofNat
    else (parseDigits 10 decDigitVal? (a :: rest)).map Int.ofNat

/-- JavaScript `BigInt(string)`: trim, then read an integer literal;
`none` models the thrown `SyntaxError`. -/
def jsBigIntOfString? (s : String) : Option Int :=
  jsBigIntChars? (jsTrimChars s.data)

/-- `hexToDecimalString` (identical in both route handlers): `"0"` for a
missing or empty argument, otherwise `BigInt(hex).toString(10)` with the
`catch` clause turning a parse failure into `"0"`. -/
def hexToDecimalString (hex : Option String) : String :=
  match hex with
  | none => "0"
  | some h =>
    if h = "" then "0"
    else
      match jsBigIntOfString? h with
      | some v => intToDecString v
      | none => "0"

/-- The integer actually denoted by `hexToDecimalString`: the clamp-to-zero
parse of an optional numeric string. -/
def clampParseInt (hex : Option String) : Int :=
  match hex with
  | none => 0
  | some h => if h = "" then 0 else (jsBigIntOfString? h).getD 0

/-! ## The decimal formatter (`formatTokenAmount` / `formatCoinAmount` core) -/

/-- JavaScript `String.prototype.padStart` with a one-character pad. -/
def padStartChars (n : Nat) (c : Char) (l : List Char) : List Char :=
  List.replicate (n - l.length) c ++ l

/-- Right padding, used by the specification when reading a fractional part
back (`padRightChars d '0'` undoes the trailing-zero strip). -/
def padRightChars (n : Nat) (c : Char) (l : List Char) : List Char :=
  l ++ List.replicate (n - l.length) c

/-- JavaScript `.replace(/0+$/, "")`: drop every trailing `'0'`. -/
def stripTrailingZeroChars (l : List Char) : List Char :=
  (l.reverse.dropWhile (fun c => c = '0')).reverse

/-- The `try` branch shared by `formatTokenAmount` and `formatCoinAmount`:
`whole = raw / 10^decimals`, `frac = raw % 10^decimals` with the truncating
`BigInt` division, the fractional part zero-padded to `decimals` digits and
stripped of trailing zeros, and only the whole part emitted when the
fractional part is zero.  (`BigInt("1" + "0".repeat(decimals))` is `10 ^
decimals`.) -/
def decimalRender (v : Int) (d : Nat) : String :=
  let base : Int := 10 ^ d
  let whole := v.tdiv base
  let frac := v.tmod base
  if frac = 0 then intToDecString whole
  else
    ⟨(intToDecString whole).data ++
      '.' :: stripTrailingZeroChars (padStartChars d '0' (intToDecString frac).data)⟩

/-- Split a character list at the first `'.'` (whole part, fractional part);
a string with no dot is all whole part. -/
def splitAtDot : List Char → List Char × List Char
  | [] => ([], [])
  | c :: cs =>
    if c = '.' then ([], cs)
    else
      let p := splitAtDot cs
      (c :: p.1, p.2)

/-- The specification's reading of a rendered decimal string: whole part
times `10^d` plus the fractional part right-padded with zeros back to `d`
digits. -/
def parseDecimalRender (s : String) (d : Nat) : Nat :=
  let p := splitAtDot s.data
  decCharsValBE p.1 * 10 ^ d + decCharsValBE (padRightChars d '0' p.2)

/-! ## Byte-oriented (Arbitrum) handler: data model and event decoder -/

/-- A raw log entry (`RpcLog`). -/
structure RpcLog where
  address : String
  topics : List String
  data : String

/-- The `transferType` tag of a decoded token transfer. -/
inductive TransferStd
  | ERC20
  | ERC721
  | ERC1155
deriving DecidableEq

/-- A decoded `TokenTransfer` (`from` / `to` are not legal Lean field
names, hence `fromAddr` / `toAddr`). -/
structure TokenTransfer where
  tokenContract : String
  fromAddr : String
  toAddr : String
  valueRaw : String
  tokenId : Option String := none
  transferType : TransferStd
deriving DecidableEq

/-- The relevant fields of `RpcTransaction`. -/
structure RpcTransaction where
  hash : String
  fromAddr : String
  toAddr : Option String
  value : String
  input : String
  gasPrice : Option String := none
  maxFeePerGas : Option String := none

/-- The relevant fields of `RpcReceipt` (the receipt itself may be `null`). -/
structure RpcReceipt where
  status : Option String := none
  gasUsed : String
  effectiveGasPrice : Option String := none
  l1Fee : Option String := none
  l1GasPrice : Option String := none
  l1GasUsed : Option String := none
  logs : List RpcLog := []

def ERC20_TRANSFER_TOPIC : String :=
  "0xddf252ad1be2c89b69c2b068fc378daa952ba7f163c4a11628f55a4df523b3ef"

def ERC721_TRANSFER_TOPIC : String :=
  "0xddf252ad1be2c89b69c2b068fc378daa952ba7f163c4a11628f55a4df523b3ef"

def ERC1155_TRANSFER_SINGLE_TOPIC : String :=
  "0xc3d58168c5ae7397731d063d5bbf3d657854427343f4c083240f7aacaa2d0f62"

def ERC1155_TRANSFER_BATCH_TOPIC : String :=
  "0x4a39dc06d4c0dbc64b70af90fd698a233a518aa5d07e595d983b8c0526c8f7fb"

/-- JavaScript `toLowerCase` on the ASCII strings handled here. -/
def toLowerString (s : String) : String :=
  ⟨s.data.map Char.toLower⟩

/-- JavaScript `s.slice(a, b)` for `0 ≤ a ≤ b`. -/
def sliceRange (a b : Nat) (s : String) : String :=
  ⟨(s.data.take b).drop a⟩

/-- JavaScript `s.slice(-n)`: the last `n` characters (the whole string if
shorter). -/
def sliceLast (n : Nat) (s : String) : String :=
  ⟨s.data.drop (s.data.length - n)⟩

/-- `` `0x${topic?.slice(26) ?? ""}` ``: the low 20 bytes of a 32-byte topic
word, prefixed with the address marker. -/
def topicAddress (t : Option String) : String :=
  ⟨'0' :: 'x' :: (match t with | none => [] | some x => x.data.drop 26)⟩

/-- One iteration of the `parseTokenTransfers` loop: the transfer pushed for
a single log entry, if any. -/
def decodeLog (log : RpcLog) : Option TokenTransfer :=
  let topic0 : Option String := (log.topics.head?).map toLowerString
  if topic0 = some ERC20_TRANSFER_TOPIC ∧ log.topics.length = 3 then
    some { tokenContract := log.address,
           fromAddr := topicAddress (log.topics.get? 1),
           toAddr := topicAddress (log.topics.get? 2),
           valueRaw := if log.data = "" then "0x0" else log.data,
           transferType := .ERC20 }
  else if topic0 = some ERC721_TRANSFER_TOPIC ∧ log.topics.length = 4 then
    some { tokenContract := log.address,
           fromAddr := topicAddress (log.topics.get? 1),
           toAddr := topicAddress (log.topics.get? 2),
           valueRaw := "0x1",
           tokenId := some (hexToDecimalString (log.topics.get? 3)),
           transferType := .ERC721 }
  else if topic0 = some ERC1155_TRANSFER_SINGLE_TOPIC ∧ log.topics.length = 4 then
    let dataStr := if log.data = "" then "0x" else log.data
    if 130 ≤ dataStr.data.length then
      some { tokenContract := log.address,
             fromAddr := topicAddress (log.topics.get? 2),
             toAddr := topicAddress (log.topics.get? 3),
             tokenId := some (hexToDecimalString (some ("0x" ++ sliceRange 2 66 dataStr))),
             valueRaw := "0x" ++ sliceRange 66 130 dataStr,
             transferType := .ERC1155 }
    else none
  else if topic0 = some ERC1155_TRANSFER_BATCH_TOPIC ∧ log.topics.length = 4 then
    some { tokenContract := log.address,
           fromAddr := topicAddress (log.topics.get? 2),
           toAddr := topicAddress (log.topics.get? 3),
           valueRaw := "0x1",
           tokenId := some "batch",
           transferType := .ERC1155 }
  else none

/-- `parseTokenTransfers`: the push loop over the logs. -/
def parseTokenTransfers (logs : List RpcLog) : List TokenTransfer :=
  logs.filterMap decodeLog

/-- The big-endian positional value of a hexadecimal digit string (the
specification's reading of a payload word). -/
def hexValBE : List Char → Nat
  | [] => 0
  | c :: cs => (hexDigitVal? c).getD 0 * 16 ^ cs.length + hexValBE cs

/-! ## Byte-oriented handler: token table, formatter, classifier, explainer -/

/-- `KNOWN_TOKENS` (keys already lowercased in the source). -/
def KNOWN_TOKENS (addr : String) : Option (String × Nat) :=
  if addr = "0xff970a61a04b1ca14834a43f5de4533ebddb5cc8" then some ("USDC", 6)
  else if addr = "0xfd086bc7cd5c481dcc9c85ebe478a1c0b69fcbb9" then some ("USDT", 6)
  else if addr = "0xda10009cbd5d07dd0cecc66161fc93d7c9000da1" then some ("DAI", 18)
  else if addr = "0x82e3a8f066a698966b041031b8413507eb728e5c" then some ("WETH", 18)
  else if addr = "0x912ce59144191c1204e64559fe8253a0e49e6548" then some ("ARB", 18)
  else if addr = "0x539bde0d7dbd336b79148aa742883198bbf60342" then some ("MAGIC", 18)
  else if addr = "0x0c880f6761f1af8d9aa9c466984b80dab9a8c9e8" then some ("PENDLE", 18)
  else if addr = "0x4e352cf164e64adcbad318c3a1e222e9eba4ce42" then some ("MCB", 18)
  else if addr = "0x3d9907f9a368ad0a51be2f8d4b8e4507dfb52c6a" then some ("GMX", 18)
  else if addr = "0xfc5a1a6eb076a2c7ad06ed22c90d7e710e35ad0a" then some ("GRAIL", 18)
  else if addr = "0x75faf114eafb1bdbe2f0316df893fd58ce45aa4" then some ("USDC", 6)
  else if addr = "0x4d1493d3e0d448b6669e5a458182ea8c1a64f0e" then some ("WETH", 18)
  else none

/-- `KNOWN_CONTRACTS` of the byte-oriented handler. -/
def KNOWN_CONTRACTS (addr : String) : Option String :=
  if addr = "0xc31e54c7a869b9fcbecc14363cf510d1c41fa443" then some "Uniswap V3 Router"
  else if addr = "0xe592427a0aece92de3edee1f18e0157c05861564" then some "Uniswap V3 Router 2"
  else if addr = "0x68b3465833fb72a70ecdf485e0e4c7bd8665fc45" then some "Uniswap V3 Swap Router"
  else if addr = "0x1b02da8cb0d097eb8d57a175b88c7d8b47997506" then some "SushiSwap Router"
  else if addr = "0xa5edbdd9646f8dff606d7448e414884c7d905dca" then some "Aave V3 Pool"
  else if addr = "0x794a61358d6845594f94dc1db02a252b5b4814ad" then some "Aave V3 Pool (Arbitrum)"
  else if addr = "0x72ce9c846789fdb6fc1f34ac4ad25dd9ef7031ef" then some "Arbitrum Bridge"
  else if addr = "0x8315177ab297ba92a06054ce80a67ed4dbd7ed3a" then some "Arbitrum Bridge (L1)"
  else if addr = "0x912ce59144191c1204e64559fe8253a0e49e6548" then some "Arbitrum Token (ARB)"
  else if addr = "0x0000000000000000000000000000000000000064" then some "Arbitrum One L1 Gas Oracle"
  else none

/-- JavaScript template interpolation of a possibly-`undefined` value. -/
def jsTemplate (o : Option String) : String :=
  o.getD "undefined"

/-- JavaScript `x || dflt` on an optional string (`""` is falsy). -/
def jsOrDefault (o : Option String) (dflt : String) : String :=
  match o with
  | none => dflt
  | some s => if s = "" then dflt else s

/-- JavaScript truthiness of a possibly-missing string. -/
def jsTruthy : Option String → Bool
  | none => false
  | some s => s != ""

/-- `formatTokenAmount` of the byte-oriented handler: symbol/decimals lookup
(`tokenContract !== undefined` then lowercased key), then the shared decimal
rendering, with the `catch` clause degrading to `hexToDecimalString`. -/
def formatTokenAmount (tokenContract : Option String) (rawAmount : Option String) :
    String × String :=
  match rawAmount with
  | none => ("0", "tokens")
  | some ra =>
    if ra = "" then ("0", "tokens")
    else
      let meta := match tokenContract with
        | none => none
        | some tc => KNOWN_TOKENS (toLowerString tc)
      let decimals := match meta with | some m => m.2 | none => 18
      let symbol := match meta with | some m => m.1 | none => "tokens"
      match jsBigIntOfString? ra with
      | some v => (decimalRender v decimals, symbol)
      | none => (hexToDecimalString (some ra), symbol)

/-- `shortenAddress` of the byte-oriented handler (lowercases first). -/
def shortenAddressArb (addr : Option String) : String :=
  match addr with
  | none => "unknown"
  | some a =>
    if a = "" then "unknown"
    else
      let lo := toLowerString a
      ⟨lo.data.take 6⟩ ++ "..." ++ sliceLast 4 lo

/-- `resolveDisplayName` of the byte-oriented handler (ENS resolution is a
stub, so this is exactly `shortenAddress`). -/
def resolveDisplayNameArb (addr : Option String) : String :=
  shortenAddressArb addr

/-- The `ActionType` enumeration of the byte-oriented handler. -/
inductive ArbActionType
  | ERC20_TRANSFER
  | ERC721_TRANSFER
  | ERC1155_TRANSFER
  | CONTRACT_CALL
deriving DecidableEq

/-- An `Action` of the byte-oriented handler. -/
structure ArbAction where
  type : ArbActionType
  description : String
  fromAddr : Option String := none
  toAddr : Option String := none
  tokenContract : Option String := none
  tokenId : Option String := none
  amount : Option String := none
deriving DecidableEq

/-- The action pushed for one decoded token transfer in `classifyActions`. -/
def arbActionOfTransfer (t : TokenTransfer) : ArbAction :=
  match t.transferType with
  | .ERC20 =>
    let amount := hexToDecimalString (some t.valueRaw)
    { type := .ERC20_TRANSFER,
      description := "sent " ++ amount ++ " tokens",
      fromAddr := some t.fromAddr, toAddr := some t.toAddr,
      tokenContract := some t.tokenContract, amount := some amount }
  | .ERC721 =>
    { type := .ERC721_TRANSFER,
      description := "transferred NFT #" ++ jsTemplate t.tokenId,
      fromAddr := some t.fromAddr, toAddr := some t.toAddr,
      tokenContract := some t.tokenContract, tokenId := t.tokenId,
      amount := some "1" }
  | .ERC1155 =>
    let amount := if t.tokenId = some "batch" then "multiple"
      else hexToDecimalString (some t.valueRaw)
    { type := .ERC1155_TRANSFER,
      description :=
        if t.tokenId = some "batch" then "transferred multiple NFTs"
        else "transferred NFT #" ++ jsTemplate t.tokenId ++ " (x" ++ amount ++ ")",
      fromAddr := some t.fromAddr, toAddr := some t.toAddr,
      tokenContract := some t.tokenContract, tokenId := t.tokenId,
      amount := some amount }

/-- `classifyActions` of the byte-oriented handler: one action per decoded
transfer, then a single `CONTRACT_CALL` when the target is non-null and the
call data is non-empty. -/
def classifyActionsArb (tx : RpcTransaction) (tokenTransfers : List TokenTransfer) :
    List ArbAction :=
  tokenTransfers.map arbActionOfTransfer ++
    (match tx.toAddr with
     | none => []
     | some t =>
       if tx.input ≠ "" ∧ tx.input ≠ "0x" then
         [{ type := .CONTRACT_CALL,
            description := "contract interaction with " ++ t,
            fromAddr := some tx.fromAddr, toAddr := some t }]
       else [])

/-- `explain` of the byte-oriented handler. -/
def explainArb (action : ArbAction) : String :=
  match action.type with
  | .ERC20_TRANSFER =>
    let p := formatTokenAmount action.tokenContract action.amount
    resolveDisplayNameArb action.fromAddr ++ " sent " ++ p.1 ++ " " ++ p.2 ++
      " to " ++ resolveDisplayNameArb action.toAddr
  | .ERC721_TRANSFER =>
    "NFT #" ++ action.tokenId.getD "unknown" ++ " transferred from " ++
      resolveDisplayNameArb action.fromAddr ++ " to " ++
      resolveDisplayNameArb action.toAddr
  | .ERC1155_TRANSFER =>
    "NFT #" ++ action.tokenId.getD "unknown" ++ " (x" ++
      action.amount.getD "1" ++ ") transferred from " ++
      resolveDisplayNameArb action.fromAddr ++ " to " ++
      resolveDisplayNameArb action.toAddr
  | .CONTRACT_CALL =>
    let target := match action.toAddr with
      | some t => toLowerString t
      | none => ""
    match KNOWN_CONTRACTS target with
    | some knownName => "User interacted with " ++ knownName
    | none => "User interacted with " ++ shortenAddressArb action.toAddr

/-! ## Byte-oriented handler: fee resolution and result assembly -/

/-- The fee fields of the assembled summary. -/
structure ArbFeeSummary where
  gasUsed : String
  effectiveGasPriceWei : String
  totalFeeWei : String
  l2FeeWei : String
  l1FeeWei : String
deriving DecidableEq

/-- `l2FeeWei`: `gasUsed * effectiveGasPrice` when the receipt and its
`gasUsed` string are truthy, else zero (`none` models a throwing
conversion). -/
def arbL2Fee : Option RpcReceipt → String → Option Int
  | some r, egp =>
    if r.gasUsed ≠ "" ∧ egp ≠ "" then do
      let a ← jsBigIntOfString? r.gasUsed
      let b ← jsBigIntOfString? egp
      pure (a * b)
    else pure 0
  | none, _ => pure 0

/-- The `receipt.l1Fee ? BigInt(receipt.l1Fee) : BigInt(0)` ternary. -/
def arbDirectL1Fee : Option String → Option Int
  | some f => if f ≠ "" then jsBigIntOfString? f else pure 0
  | none => pure 0

/-- `l1FeeWei`: the directly reported L1 fee when truthy, else zero. -/
def arbDirectL1 : Option RpcReceipt → Option Int
  | some r => arbDirectL1Fee r.l1Fee
  | none => pure 0

/-- `calculatedL1Fee`: when the direct fee is zero and both secondary gas
fields are truthy, their product, else the direct fee. -/
def arbFallbackL1 (receipt : Option RpcReceipt) (l1 : Int) : Option Int :=
  if l1 = 0 ∧ jsTruthy (receipt.bind fun r => r.l1GasPrice) = true ∧
      jsTruthy (receipt.bind fun r => r.l1GasUsed) = true then do
    let p ← jsBigIntOfString? ((receipt.bind fun r => r.l1GasPrice).getD "")
    let u ← jsBigIntOfString? ((receipt.bind fun r => r.l1GasUsed).getD "")
    pure (p * u)
  else pure l1

/-- The fee computation of the byte-oriented `GET` handler (lines computing
`gasUsed`, `effectiveGasPrice`, `l2FeeWei`, `l1FeeWei`, `totalFeeWei` and
`calculatedL1Fee`); `none` models a `BigInt` conversion throwing, which
aborts the request. -/
def arbFee (tx : RpcTransaction) (receipt : Option RpcReceipt) :
    Option ArbFeeSummary := do
  let gasUsedStr := hexToDecimalString (receipt.map fun r => r.gasUsed)
  let egpInput : String :=
    (((receipt.bind fun r => r.effectiveGasPrice).or tx.maxFeePerGas).or
      tx.gasPrice).getD "0x0"
  let effectiveGasPrice := hexToDecimalString (some egpInput)
  let l2FeeWei ← arbL2Fee receipt effectiveGasPrice
  let l1FeeWei ← arbDirectL1 receipt
  let totalFeeWei := l2FeeWei + l1FeeWei
  let calculatedL1Fee ← arbFallbackL1 receipt l1FeeWei
  pure { gasUsed := gasUsedStr,
         effectiveGasPriceWei := effectiveGasPrice,
         totalFeeWei := intToDecString totalFeeWei,
         l2FeeWei := intToDecString l2FeeWei,
         l1FeeWei := intToDecString calculatedL1Fee }

/-- The effective gas price actually resolved by the handler, as an
integer: receipt-reported effective price, else max-fee-per-gas, else legacy
gas price, else zero, put through the clamp-to-zero parse. -/
def resolvedGasPrice (tx : RpcTransaction) (receipt : Option RpcReceipt) : Int :=
  clampParseInt (some
    ((((receipt.bind fun r => r.effectiveGasPrice).or tx.maxFeePerGas).or
      tx.gasPrice).getD "0x0"))

/-- The assembled response of the byte-oriented handler (the decode-relevant
fields). -/
structure ArbExplanationResult where
  txHash : String
  status : String
  fee : ArbFeeSummary
  tokenTransfers : List TokenTransfer
  actions : List ArbAction
  actionExplanations : List String
deriving DecidableEq

/-- The result assembly of the byte-oriented `GET` handler after the raw
transaction and receipt are fetched. -/
def buildArbExplanation (tx : RpcTransaction) (receipt : Option RpcReceipt) :
    Option ArbExplanationResult := do
  let tokenTransfers := match receipt with
    | some r => parseTokenTransfers r.logs
    | none => []
  let status :=
    if (receipt.bind fun r => r.status) = some "0x1" then "success"
    else if (receipt.bind fun r => r.status) = some "0x0" then "reverted"
    else "pending_or_unknown"
  let fee ← arbFee tx receipt
  let actions := classifyActionsArb tx tokenTransfers
  pure { txHash := tx.hash, status, fee, tokenTransfers, actions,
         actionExplanations := actions.map explainArb }

/-! ## Object-model (Sui) handler: data model -/

/-- `effects?.gasUsed || {}` of a Sui transaction block. -/
structure SuiGasUsed where
  computationCost : Option String := none
  storageCost : Option String := none
  storageRebate : Option String := none

/-- A domain event together with the fields the decoder reads from its
`parsedJson` payload. -/
structure SuiEvent where
  type : Option String := none
  amount : Option String := none
  coin_type : Option String := none
  recipient : Option String := none
  sender : Option String := none

/-- An `objectChanges` entry. -/
structure SuiObjectChange where
  type : Option String := none
  objectId : Option String := none
  objectType : Option String := none
  sender : Option String := none
  recipient : Option String := none

/-- A `MoveCall` command inside a programmable transaction. -/
structure MoveCallCmd where
  pkg : Option String := none
  modName : Option String := none
  functionName : Option String := none

/-- The `kind` field of the transaction data: a plain string, a
`ProgrammableTransaction` object whose `transactions` list holds commands
(`none` for a command without a `MoveCall` field), or some other truthy
object. -/
inductive SuiTxKind
  | str (s : String)
  | programmable (cmds : List (Option MoveCallCmd))
  | otherObj

/-- `transaction?.data?.transaction` of a Sui transaction block. -/
structure SuiTxData where
  sender : Option String := none
  kind : Option SuiTxKind := none

/-- The decode-relevant fields of a fetched Sui transaction block. -/
structure SuiTxBlock where
  digest : String
  txData : Option SuiTxData := none
  statusTag : Option String := none
  gasUsed : SuiGasUsed := {}
  events : Option (List SuiEvent) := none
  objectChanges : Option (List SuiObjectChange) := none

/-- A decoded coin transfer. -/
structure CoinTransfer where
  coinType : String
  fromAddr : String
  toAddr : String
  amount : String
deriving DecidableEq

/-- JavaScript `startsWith` on character lists. -/
def startsWithChars : List Char → List Char → Bool
  | _, [] => true
  | [], _ :: _ => false
  | c :: cs, n :: ns => c = n && startsWithChars cs ns

/-- JavaScript `String.prototype.includes` on character lists. -/
def containsSubChars (needle : List Char) : List Char → Bool
  | [] => startsWithChars [] needle
  | c :: t => startsWithChars (c :: t) needle || containsSubChars needle t

/-! ## Object-model handler: event decoder -/

/-- One iteration of the `parseCoinTransfers` loop: the record pushed for a
single event, if any (`type?.includes("Transfer")`, then both `amount` and
`recipient` must be truthy; `coin_type` defaults to the native coin and
`sender` to `"unknown"`). -/
def coinTransferOfEvent (e : SuiEvent) : Option CoinTransfer :=
  match e.type with
  | none => none
  | some ty =>
    if containsSubChars "Transfer".data ty.data then
      match e.amount, e.recipient with
      | some am, some rc =>
        if am ≠ "" ∧ rc ≠ "" then
          some { coinType := jsOrDefault e.coin_type "0x2::sui::SUI",
                 fromAddr := jsOrDefault e.sender "unknown",
                 toAddr := rc, amount := am }
        else none
      | some _, none => none
      | none, _ => none
    else none

/-- `parseCoinTransfers`: scan the events, skipping the rest. -/
def parseCoinTransfers (events : Option (List SuiEvent)) : List CoinTransfer :=
  match events with
  | none => []
  | some es => es.filterMap coinTransferOfEvent

/-! ## Object-model handler: formatter and classifier -/

/-- `KNOWN_COINS`. -/
def KNOWN_COINS (coinType : String) : Option (String × Nat) :=
  if coinType = "0x2::sui::SUI" then some ("SUI", 9)
  else if coinType =
      "0x5d4b302506645c37ff133b98c4b50a5ae14841659738d6d733d59d0d217a93bf::coin::COIN"
    then some ("USDC", 6)
  else if coinType =
      "0xc060006111016b8a020ad5b33834984a437aaa7d3c74c18e09a95d48aceab08c::coin::COIN"
    then some ("USDT", 6)
  else none

/-- `formatCoinAmount`: like `formatTokenAmount` but keyed on the coin type
(truthiness check on the key) with default decimals 9 and symbol `"coins"`. -/
def formatCoinAmount (coinType : Option String) (rawAmount : Option String) :
    String × String :=
  match rawAmount with
  | none => ("0", "coins")
  | some ra =>
    if ra = "" then ("0", "coins")
    else
      let meta := match coinType with
        | none => none
        | some ct => if ct = "" then none else KNOWN_COINS ct
      let decimals := match meta with | some m => m.2 | none => 9
      let symbol := match meta with | some m => m.1 | none => "coins"
      match jsBigIntOfString? ra with
      | some v => (decimalRender v decimals, symbol)
      | none => (hexToDecimalString (some ra), symbol)

/-- `shortenAddress` of the object-model handler (no lowercasing). -/
def shortenAddressSui (addr : Option String) : String :=
  match addr with
  | none => "unknown"
  | some a =>
    if a = "" then "unknown"
    else ⟨a.data.take 6⟩ ++ "..." ++ sliceLast 4 a

/-- `resolveDisplayName` of the object-model handler. -/
def resolveDisplayNameSui (addr : Option String) : String :=
  shortenAddressSui addr

/-- The `ActionType` enumeration of the object-model handler. -/
inductive SuiActionType
  | COIN_TRANSFER
  | NFT_TRANSFER
  | OBJECT_CREATED
  | MOVE_CALL
  | CONTRACT_CALL
  | STAKING
  | SWAP
deriving DecidableEq

/-- An `Action` of the object-model handler. -/
structure SuiAction where
  type : SuiActionType
  description : String
  fromAddr : Option String := none
  toAddr : Option String := none
  coinType : Option String := none
  amount : Option String := none
  objectId : Option String := none
deriving DecidableEq

/-- The NFT-transfer entries collected from `objectChanges`. -/
structure NftXfer where
  fromAddr : String
  toAddr : String
  objectId : String
  objectType : Option String

/-- One iteration of the `objectChanges` counting loop: counts of
`created` and `transferred` records and the collected NFT transfers. -/
def objChangeStep (acc : Nat × Nat × List NftXfer) (change : SuiObjectChange) :
    Nat × Nat × List NftXfer :=
  if change.type = some "created" then (acc.1 + 1, acc.2.1, acc.2.2)
  else if change.type = some "transferred" then
    let nfts :=
      match change.objectType with
      | some ot =>
        if ot ≠ "" ∧ containsSubChars "nft".data ot.data = true then
          acc.2.2 ++ [{ fromAddr := jsOrDefault change.sender "unknown",
                        toAddr := jsOrDefault change.recipient "unknown",
                        objectId := jsOrDefault change.objectId "",
                        objectType := change.objectType : NftXfer }]
        else acc.2.2
      | none => acc.2.2
    (acc.1, acc.2.1 + 1, nfts)
  else acc

/-- The number of `created` records among the object changes. -/
def createdCount (tx : SuiTxBlock) : Nat :=
  ((tx.objectChanges.getD []).foldl objChangeStep (0, 0, [])).1

/-- The action pushed for one decoded coin transfer. -/
def suiActionOfCoinTransfer (t : CoinTransfer) : SuiAction :=
  let p := formatCoinAmount (some t.coinType) (some t.amount)
  { type := .COIN_TRANSFER,
    description := "sent " ++ p.1 ++ " " ++ p.2,
    fromAddr := some t.fromAddr, toAddr := some t.toAddr,
    coinType := some t.coinType, amount := some t.amount }

/-- The single object-creation summary action for a positive created
count. -/
def objectCreatedAction (tx : SuiTxBlock) (count : Nat) : SuiAction :=
  { type := .OBJECT_CREATED,
    description := natToDecString count ++ " new object" ++
      (if 1 < count then "s were" else " was") ++ " created",
    fromAddr := some (jsOrDefault (tx.txData.bind fun td => td.sender) "unknown"),
    toAddr := none,
    amount := some (natToDecString count) }

/-- The action pushed for one collected NFT transfer. -/
def nftActionOf (n : NftXfer) : SuiAction :=
  let objectIdShort := if n.objectId ≠ "" then "#" ++ ⟨n.objectId.data.take 8⟩ else ""
  { type := .NFT_TRANSFER,
    description := "NFT " ++ objectIdShort ++ " transferred",
    fromAddr := some n.fromAddr, toAddr := some n.toAddr,
    objectId := some n.objectId }

/-- The action pushed for one `MoveCall` command. -/
def moveCallActionOf (td : SuiTxData) (mc : MoveCallCmd) : SuiAction :=
  let packageId := jsOrDefault mc.pkg "unknown"
  let modName := jsOrDefault mc.modName "unknown"
  let functionName := jsOrDefault mc.functionName "unknown"
  let packageShort :=
    if 20 < packageId.data.length then
      ⟨packageId.data.take 10⟩ ++ "..." ++ sliceLast 6 packageId
    else packageId
  { type := .MOVE_CALL,
    description := "called " ++ modName ++ "::" ++ functionName,
    fromAddr := td.sender,
    toAddr := some packageId,
    coinType := some (packageShort ++ "::" ++ modName ++ "::" ++ functionName) }

/-- The call-interaction actions appended at the end of `classifyActions`:
one `MOVE_CALL` per `MoveCall` command of a programmable transaction, or one
`CONTRACT_CALL` for any other truthy kind that is not `"TransferObject"`. -/
def suiCallActions (txData : Option SuiTxData) : List SuiAction :=
  match txData with
  | none => []
  | some td =>
    match td.kind with
    | none => []
    | some (SuiTxKind.programmable cmds) =>
      cmds.filterMap fun c => c.map (moveCallActionOf td)
    | some (SuiTxKind.str s) =>
      if s ≠ "" ∧ s ≠ "TransferObject" then
        [{ type := .CONTRACT_CALL, description := "executed " ++ s,
           fromAddr := td.sender, toAddr := none }]
      else []
    | some SuiTxKind.otherObj =>
      [{ type := .CONTRACT_CALL, description := "executed transaction",
         fromAddr := td.sender, toAddr := none }]

/-- `classifyActions` of the object-model handler: coin-transfer actions,
then the creation summary (when the created count is positive), then the
NFT-transfer actions, then the call actions — in exactly this append
order. -/
def classifyActionsSui (tx : SuiTxBlock) (coinTransfers : List CoinTransfer) :
    List SuiAction :=
  let coinActs := coinTransfers.map suiActionOfCoinTransfer
  let trip := (tx.objectChanges.getD []).foldl objChangeStep (0, 0, [])
  let creationActs :=
    if 0 < trip.1 then [objectCreatedAction tx trip.1] else []
  let nftActs := trip.2.2.map nftActionOf
  coinActs ++ creationActs ++ nftActs ++ suiCallActions tx.txData

/-! ## Object-model handler: explanation rendering and result assembly -/

/-- `explain` of the object-model handler. -/
def explainSui (action : SuiAction) : String :=
  match action.type with
  | .COIN_TRANSFER =>
    let p := formatCoinAmount action.coinType action.amount
    resolveDisplayNameSui action.fromAddr ++ " transferred " ++ p.1 ++ " " ++
      p.2 ++ " to " ++ resolveDisplayNameSui action.toAddr
  | .NFT_TRANSFER =>
    let objectIdStr := match action.objectId with
      | some oid => if oid ≠ "" then "#" ++ ⟨oid.data.take 8⟩ else ""
      | none => ""
    "NFT " ++ objectIdStr ++ " transferred from " ++
      resolveDisplayNameSui action.fromAddr ++ " to " ++
      resolveDisplayNameSui action.toAddr
  | .OBJECT_CREATED =>
    let count := jsOrDefault action.amount "1"
    count ++ " new object" ++ (if count ≠ "1" then "s were" else " was") ++
      " created by " ++ resolveDisplayNameSui action.fromAddr
  | .MOVE_CALL =>
    let fromName := resolveDisplayNameSui action.fromAddr
    let callInfo := jsOrDefault action.coinType "unknown function"
    let parts := callInfo.splitOn "::"
    if 3 ≤ parts.length then
      let packageId := parts.getD 0 ""
      let modName := parts.getD 1 ""
      let functionName := parts.getD 2 ""
      let packageShort :=
        if 20 < packageId.data.length then
          ⟨packageId.data.take 10⟩ ++ "..." ++ sliceLast 6 packageId
        else packageId
      fromName ++ " called " ++ modName ++ "::" ++ functionName ++
        " in package " ++ packageShort
    else fromName ++ " executed Move call: " ++ callInfo
  | .CONTRACT_CALL =>
    resolveDisplayNameSui action.fromAddr ++ " executed a contract call"
  | .STAKING =>
    resolveDisplayNameSui action.fromAddr ++ " staked SUI"
  | .SWAP =>
    resolveDisplayNameSui action.fromAddr ++ " executed a swap"

/-- JavaScript `parseInt(s, 10)`: trim, optional sign, then the longest
leading run of decimal digits; `none` models `NaN`. -/
def leadingDecimal? (l : List Char) : Option Nat :=
  let digits := l.takeWhile fun c => (decDigitVal? c).isSome
  if digits.isEmpty then none else some (decCharsValBE digits)

def jsParseInt10? (s : String) : Option Int :=
  match jsTrimChars s.data with
  | [] => none
  | a :: rest =>
    if a = '-' then (leadingDecimal? rest).map fun n => -Int.ofNat n
    else if a = '+' then (leadingDecimal? rest).map Int.ofNat
    else (leadingDecimal? (a :: rest)).map Int.ofNat

/-- The `objectCreatedCount` reduction of the handler: sum of
`parseInt(a.amount || "0", 10)` over the `OBJECT_CREATED` actions (`none`
models a `NaN` sum). -/
def objectsCreatedOf (actions : List SuiAction) : Option Int :=
  (actions.filter fun a => a.type = SuiActionType.OBJECT_CREATED).foldl
    (fun acc a =>
      match acc, jsParseInt10? (jsOrDefault a.amount "0") with
      | some s, some v => some (s + v)
      | _, _ => none)
    (some 0)

/-- The `totalGasCost` computation: the three gas fields through
`hexToDecimalString`, re-read with `BigInt`, then
`computation + storage - rebate` with no clamping (`none` models a
`BigInt` conversion throwing). -/
def suiTotalGasCost (g : SuiGasUsed) : Option Int := do
  let ci ← jsBigIntOfString? (hexToDecimalString g.computationCost)
  let si ← jsBigIntOfString? (hexToDecimalString g.storageCost)
  let ri ← jsBigIntOfString? (hexToDecimalString g.storageRebate)
  pure (ci + si - ri)

/-- The gas part of the assembled summary. -/
structure SuiGasSummary where
  computationCost : String
  storageCost : String
  storageRebate : String
  total : String
deriving DecidableEq

/-- The assembled response of the object-model handler (the decode-relevant
fields). -/
structure SuiExplanationResult where
  txDigest : String
  status : String
  objectsCreated : Option Int
  gasSummary : SuiGasSummary
  coinTransfers : List CoinTransfer
  actions : List SuiAction
  actionExplanations : List String
deriving DecidableEq

/-- The result assembly of the object-model `GET` handler after the
transaction block is fetched. -/
def buildSuiExplanation (tx : SuiTxBlock) : Option SuiExplanationResult := do
  let status :=
    if tx.statusTag = some "success" then "success"
    else if tx.statusTag = some "failure" then "reverted"
    else "pending_or_unknown"
  let total ← suiTotalGasCost tx.gasUsed
  let coinTransfers := parseCoinTransfers tx.events
  let actions := classifyActionsSui tx coinTransfers
  pure { txDigest := tx.digest, status,
         objectsCreated := objectsCreatedOf actions,
         gasSummary :=
           { computationCost := hexToDecimalString tx.gasUsed.computationCost,
             storageCost := hexToDecimalString tx.gasUsed.storageCost,
             storageRebate := hexToDecimalString tx.gasUsed.storageRebate,
             total := intToDecString total },
         coinTransfers, actions,
         actionExplanations := actions.map explainSui }

/-! ## Specification-side readings and concrete fixtures -/

/-- The specification's notion of a valid parse input: a base-10 integer
literal (optional leading minus) or a `0x`-prefixed base-16 literal, and
nothing else. -/
def specIntLiteral? (s : String) : Option Int :=
  match s.data with
  | '0' :: 'x' :: rest => (parseDigits 16 hexDigitVal? rest).map Int.ofNat
  | '-' :: rest => (parseDigits 10 decDigitVal? rest).map fun n => -Int.ofNat n
  | l => (parseDigits 10 decDigitVal? l).map Int.ofNat

/-- The NFT entry collected for one object change, if any (the
specification-side reading of the counting loop). -/
def nftEntryOf? (change : SuiObjectChange) : Option NftXfer :=
  if change.type = some "transferred" then
    match change.objectType with
    | some ot =>
      if ot ≠ "" ∧ containsSubChars "nft".data ot.data = true then
        some { fromAddr := jsOrDefault change.sender "unknown",
               toAddr := jsOrDefault change.recipient "unknown",
               objectId := jsOrDefault change.objectId "",
               objectType := change.objectType }
      else none
    | none => none
  else none

/-- A transfer-typed event with amount and recipient present (fixture). -/
def evC9 : SuiEvent :=
  { type := some "0x2::pay::PayTransferEvent", amount := some "5",
    recipient := some "0xr" }

/-- The fixed transaction used by the C2 counterexample and witness. -/
def txC2 : RpcTransaction :=
  { hash := "0xh", fromAddr := "0xa", toAddr := some "0xb", value := "0x0",
    input := "0x" }

/-- A receipt with no direct L1 fee but both secondary gas fields present. -/
def receiptC2 : RpcReceipt :=
  { gasUsed := "0x1", effectiveGasPrice := some "0x1",
    l1GasPrice := some "0x2", l1GasUsed := some "0x3" }

/-- A receipt exercising the amended C2 with no L1 data at all. -/
def receiptC2w : RpcReceipt :=
  { gasUsed := "0x2", effectiveGasPrice := some "0x3" }

/-- The canonical transfer signature in uppercase hex (fixture exercising
the case-insensitive comparison). -/
def topicC1 : String :=
  "0xDDF252AD1BE2C89B69C2B068FC378DAA952BA7F163C4A11628F55A4DF523B3EF"

/-- A 3-topic transfer event (fixture). -/
def logC1a : RpcLog :=
  { address := "0xc", topics := [topicC1, "0xt1", "0xt2"], data := "0x05" }

/-- A 4-topic transfer event with the same signature (fixture). -/
def logC1b : RpcLog :=
  { address := "0xc", topics := [topicC1, "0xt1", "0xt2", "0x07"], data := "" }

/-- A single `MoveCall` command (fixture). -/
def mcC6 : MoveCallCmd :=
  { pkg := some "0xp", modName := some "m", functionName := some "f" }

/-- A transaction block with two created objects and one Move call
(fixture for the classifier-ordering scenario). -/
def suiTxC6 : SuiTxBlock :=
  { digest := "d",
    txData := some { sender := some "0xsender11",
                     kind := some (SuiTxKind.programmable [some mcC6]) },
    objectChanges := some [{ type := some "created" }, { type := some "created" }] }

/-- One decoded fungible (coin) transfer (fixture). -/
def coinC6 : CoinTransfer :=
  { coinType := "0x2::sui::SUI", fromAddr := "0xaaaa11", toAddr := "0xbbbb11",
    amount := "1000000000" }

/-- A transaction block with a single created object change (fixture). -/
def suiTxC10 : SuiTxBlock :=
  { digest := "dA", objectChanges := some [{ type := some "created" }] }

/-- The assembled result for `suiTxC10` (fixture). -/
def resC10 : SuiExplanationResult :=
  { txDigest := "dA", status := "pending_or_unknown", objectsCreated := some 1,
    gasSummary := ⟨"0", "0", "0", "0"⟩, coinTransfers := [],
    actions := [⟨SuiActionType.OBJECT_CREATED, "1 new object was created",
      some "unknown", none, none, some "1", none⟩],
    actionExplanations := ["1 new object was created by unknow...nown"] }

/-- A minimal transaction block (fixture). -/
def suiTxC7 : SuiTxBlock :=
  { digest := "d7" }

/-- The assembled result of `suiTxC7` (fixture). -/
def resC7 : SuiExplanationResult :=
  { txDigest := "d7", status := "pending_or_unknown", objectsCreated := some 0,
    gasSummary := ⟨"0", "0", "0", "0"⟩, coinTransfers := [], actions := [],
    actionExplanations := [] }

/-- The assembled byte-oriented result for `txC2` with no receipt
(fixture). -/
def resC7arb : ArbExplanationResult :=
  { txHash := "0xh", status := "pending_or_unknown",
    fee := ⟨"0", "0", "0", "0", "0"⟩, tokenTransfers := [], actions := [],
    actionExplanations := [] }

/-! ## Lemmas and claim theorems -/

/-! ## Lemmas about the primitives -/

theorem decDigitChar_toNat : ∀ d, d < 10 → (decDigitChar d).toNat = 48 + d := by
  decide

theorem natDecCore_val : ∀ fuel n, n ≤ fuel → decValLE (natDecCore fuel n) = n := by
  intro fuel
  induction fuel with
  | zero => intro n h; interval_cases n; simp [natDecCore, decValLE]
  | succ fuel ih =>
    intro n h
    by_cases h0 : n = 0
    · simp [natDecCore, h0, decValLE]
    · have hdiv : n / 10 ≤ fuel := by
        have : n / 10 < n := Nat.div_lt_self (Nat.pos_of_ne_zero h0) (by omega)
        omega
      simp only [natDecCore, h0, if_false, decValLE, ih _ hdiv]
      omega

theorem natDecCore_digit_lt :
    ∀ fuel n d, d ∈ natDecCore fuel n → d < 10 := by
  intro fuel
  induction fuel with
  | zero => intro n d h; simp [natDecCore] at h
  | succ fuel ih =>
    intro n d h
    by_cases h0 : n = 0
    · simp [natDecCore, h0] at h
    · simp only [natDecCore, h0, if_false, List.mem_cons] at h
      rcases h with h | h
      · omega
      · exact ih _ _ h

theorem natDecCore_length :
    ∀ fuel n k, n < 10 ^ k → (natDecCore fuel n).length ≤ k := by
  intro fuel
  induction fuel with
  | zero => intro n k _; simp [natDecCore]
  | succ fuel ih =>
    intro n k hk
    by_cases h0 : n = 0
    · simp [natDecCore, h0]
    · have hkpos : 0 < k := by
        rcases Nat.eq_zero_or_pos k with h | h
        · subst h; simp at hk; omega
        · exact h
      have hdiv : n / 10 < 10 ^ (k - 1) := by
        have h10 : (0:Nat) < 10 := by omega
        rw [Nat.div_lt_iff_lt_mul h10]
        have : 10 ^ (k - 1) * 10 = 10 ^ k := by
          have : k - 1 + 1 = k := by omega
          calc 10 ^ (k - 1) * 10 = 10 ^ (k - 1 + 1) := by ring
            _ = 10 ^ k := by rw [this]
        omega
      simp only [natDecCore, h0, if_false, List.length_cons]
      have := ih (n / 10) (k - 1) hdiv
      omega

theorem natDecDigits_val (n : Nat) : decValLE (natDecDigits n) = n :=
  natDecCore_val n n le_rfl

theorem natDecDigits_digit_lt (n d : Nat) (h : d ∈ natDecDigits n) : d < 10 :=
  natDecCore_digit_lt n n d h

theorem natDecDigits_length (n k : Nat) (h : n < 10 ^ k) :
    (natDecDigits n).length ≤ k :=
  natDecCore_length n n k h

theorem natDecDigits_ne_nil (n : Nat) (h : n ≠ 0) : natDecDigits n ≠ [] := by
  cases n with
  | zero => omega
  | succ m => simp [natDecDigits, natDecCore]

theorem natToDecCharsBE_mem_range (n : Nat) :
    ∀ c ∈ natToDecCharsBE n, 48 ≤ c.toNat ∧ c.toNat ≤ 57 := by
  intro c hc
  unfold natToDecCharsBE at hc
  by_cases h0 : n = 0
  · simp [h0] at hc
    subst hc
    decide
  · simp only [h0, if_false, List.mem_reverse, List.mem_map] at hc
    obtain ⟨d, hd, rfl⟩ := hc
    have hlt := natDecDigits_digit_lt n d hd
    rw [decDigitChar_toNat d hlt]
    omega

theorem foldl_dec_map (l : List Nat) (a : Nat) (h : ∀ d ∈ l, d < 10) :
    List.foldl (fun x c => 10 * x + (c.toNat - 48)) a
      ((l.map decDigitChar).reverse) = a * 10 ^ l.length + decValLE l := by
  induction l generalizing a with
  | nil => simp [decValLE]
  | cons d ds ih =>
    have hd : d < 10 := h d (by simp)
    have hds : ∀ x ∈ ds, x < 10 := fun x hx => h x (by simp [hx])
    simp only [List.map_cons, List.reverse_cons, List.foldl_append, List.foldl_cons,
      List.foldl_nil, ih a hds, decValLE, List.length_cons]
    rw [decDigitChar_toNat d hd]
    ring_nf
    omega

theorem decCharsValBE_natToDecCharsBE (n : Nat) :
    decCharsValBE (natToDecCharsBE n) = n := by
  unfold natToDecCharsBE decCharsValBE
  by_cases h0 : n = 0
  · subst h0; decide
  · simp only [h0, if_false]
    rw [foldl_dec_map _ 0 (natDecDigits_digit_lt n)]
    simp [natDecDigits_val]

theorem decCharsValBE_replicate_zero (k : Nat) (l : List Char) :
    decCharsValBE (List.replicate k '0' ++ l) = decCharsValBE l := by
  unfold decCharsValBE
  rw [List.foldl_append]
  congr 1
  induction k with
  | zero => simp
  | succ k ih => simpa [List.replicate_succ] using ih

theorem dropWhile_eq_self_of_none {p : Char → Bool} {l : List Char}
    (h : ∀ c ∈ l, p c = false) : l.dropWhile p = l := by
  cases l with
  | nil => rfl
  | cons a t =>
    rw [List.dropWhile_cons]
    simp [h a (by simp)]

theorem jsTrimChars_eq_self {l : List Char}
    (h : ∀ c ∈ l, isJsWhitespace c = false) : jsTrimChars l = l := by
  unfold jsTrimChars
  rw [dropWhile_eq_self_of_none h,
    dropWhile_eq_self_of_none (fun c hc => h c (List.mem_reverse.mp hc)),
    List.reverse_reverse]

theorem isJsWhitespace_range {c : Char} (hlo : 33 ≤ c.toNat)
    (hhi : c.toNat ≤ 159) : isJsWhitespace c = false := by
  unfold isJsWhitespace
  have h1 : c ≠ ' ' := by intro h; subst h; simp at hlo
  have h2 : c ≠ '\t' := by intro h; subst h; simp at hlo
  have h3 : c ≠ '\n' := by intro h; subst h; simp at hlo
  have h4 : c ≠ '\r' := by intro h; subst h; simp at hlo
  have h5 : c ≠ Char.ofNat 11 := by intro h; subst h; simp at hlo
  have h6 : c ≠ Char.ofNat 12 := by intro h; subst h; simp at hlo
  have h7 : c ≠ Char.ofNat 160 := by intro h; subst h; simp at hhi
  simp [h1, h2, h3, h4, h5, h6, h7]

theorem parseDigitsAux_dec_valid (l : List Char) (acc : Nat)
    (h : ∀ c ∈ l, 48 ≤ c.toNat ∧ c.toNat ≤ 57) :
    parseDigitsAux 10 decDigitVal? l acc =
      some (l.foldl (fun a c => 10 * a + (c.toNat - 48)) acc) := by
  induction l generalizing acc with
  | nil => rfl
  | cons c cs ih =>
    have hc := h c (by simp)
    have hcs : ∀ x ∈ cs, 48 ≤ x.toNat ∧ x.toNat ≤ 57 := fun x hx => h x (by simp [hx])
    simp only [parseDigitsAux, decDigitVal?, hc, and_self, if_true, List.foldl_cons]
    exact ih _ hcs

theorem parseDigits_natToDecCharsBE (n : Nat) :
    parseDigits 10 decDigitVal? (natToDecCharsBE n) = some n := by
  have hne : natToDecCharsBE n ≠ [] := by
    unfold natToDecCharsBE
    by_cases h0 : n = 0
    · simp [h0]
    · simp only [h0, if_false]
      intro h
      have := natDecDigits_ne_nil n h0
      simp at h
      exact this h
  obtain ⟨a, t, hat⟩ := List.exists_cons_of_ne_nil hne
  have hval : decCharsValBE (natToDecCharsBE n) = n := decCharsValBE_natToDecCharsBE n
  rw [hat] at hval ⊢
  unfold parseDigits
  rw [parseDigitsAux_dec_valid _ 0 (by rw [← hat]; exact natToDecCharsBE_mem_range n)]
  unfold decCharsValBE at hval
  rw [hval]

theorem jsTrimChars_natToDecCharsBE (n : Nat) :
    jsTrimChars (natToDecCharsBE n) = natToDecCharsBE n :=
  jsTrimChars_eq_self fun c hc => by
    have := natToDecCharsBE_mem_range n c hc
    exact isJsWhitespace_range (by omega) (by omega)

theorem natToDecCharsBE_head_ne (n : Nat) (c : Char) (t : List Char)
    (hat : natToDecCharsBE n = c :: t) :
    c ≠ '-' ∧ c ≠ '+' := by
  have hc : 48 ≤ c.toNat ∧ c.toNat ≤ 57 :=
    natToDecCharsBE_mem_range n c (by rw [hat]; simp)
  constructor
  · intro h; subst h; simp at hc
  · intro h; subst h; simp at hc

theorem jsBigIntChars?_digits (n : Nat) :
    jsBigIntChars? (natToDecCharsBE n) = some (n : Int) := by
  have hne : natToDecCharsBE n ≠ [] := by
    intro h
    have := parseDigits_natToDecCharsBE n
    rw [h] at this
    simp [parseDigits] at this
  obtain ⟨a, t, hat⟩ := List.exists_cons_of_ne_nil hne
  have hrange : ∀ c ∈ natToDecCharsBE n, 48 ≤ c.toNat ∧ c.toNat ≤ 57 :=
    natToDecCharsBE_mem_range n
  have ha := natToDecCharsBE_head_ne n a t hat
  have hparse := parseDigits_natToDecCharsBE n
  rw [hat] at hparse ⊢
  unfold jsBigIntChars?
  simp only [ha.1, ha.2, if_false]
  by_cases ha0 : a = '0'
  · subst ha0
    cases t with
    | nil =>
      simp only []
      have : n = 0 := by
        have := hparse
        simp [parseDigits, parseDigitsAux, decDigitVal?] at this
        omega
      simp [this]
    | cons c t2 =>
      have hc : 48 ≤ c.toNat ∧ c.toNat ≤ 57 :=
        hrange c (by rw [hat]; simp)
      have hx : (c = 'x' || c = 'X') = false := by
        rcases hc with ⟨h1, h2⟩
        have : c ≠ 'x' := by intro h; subst h; simp at h2
        have : c ≠ 'X' := by
          intro h; subst h; simp at h2
        simp_all
      have ho : (c = 'o' || c = 'O') = false := by
        rcases hc with ⟨h1, h2⟩
        have hc1 : c ≠ 'o' := by intro h; subst h; simp at h2
        have hc2 : c ≠ 'O' := by intro h; subst h; simp at h2
        simp [hc1, hc2]
      have hb : (c = 'b' || c = 'B') = false := by
        rcases hc with ⟨h1, h2⟩
        have hc1 : c ≠ 'b' := by intro h; subst h; simp at h2
        have hc2 : c ≠ 'B' := by intro h; subst h; simp at h2
        simp [hc1, hc2]
      simp [hx, ho, hb, hparse]
  · simp [ha0, hparse]

theorem jsBigIntOfString?_intToDecString (v : Int) :
    jsBigIntOfString? (intToDecString v) = some v := by
  unfold jsBigIntOfString? intToDecString
  by_cases hv : v < 0
  · simp only [hv, if_true]
    have habs : v.natAbs ≠ 0 := by omega
    show jsBigIntChars? (jsTrimChars ('-' :: natToDecCharsBE v.natAbs)) = some v
    have htrim : jsTrimChars ('-' :: natToDecCharsBE v.natAbs) =
        '-' :: natToDecCharsBE v.natAbs := by
      apply jsTrimChars_eq_self
      intro c hc
      rcases List.mem_cons.mp hc with h | h
      · subst h; decide
      · have := natToDecCharsBE_mem_range v.natAbs c h
        exact isJsWhitespace_range (by omega) (by omega)
    rw [htrim]
    have harm : jsBigIntChars? ('-' :: natToDecCharsBE v.natAbs) =
        (parseDigits 10 decDigitVal? (natToDecCharsBE v.natAbs)).map
          fun n => -Int.ofNat n := by
      unfold jsBigIntChars?
      simp
    rw [harm, parseDigits_natToDecCharsBE]
    simp only [Option.map_some', Option.some.injEq, Int.ofNat_eq_coe]
    omega
  · simp only [hv, if_false]
    show jsBigIntChars? (jsTrimChars (natToDecCharsBE v.toNat)) = some v
    rw [jsTrimChars_natToDecCharsBE, jsBigIntChars?_digits]
    have hvv : ((v.toNat : Nat) : Int) = v := by omega
    rw [hvv]

theorem hexToDecimalString_eq_clamp (h : Option String) :
    hexToDecimalString h = intToDecString (clampParseInt h) := by
  have h0 : intToDecString 0 = "0" := by decide
  unfold hexToDecimalString clampParseInt
  cases h with
  | none => rw [h0]
  | some s =>
    by_cases hs : s = ""
    · simp [hs, h0]
    · simp only [hs, if_false]
      cases jsBigIntOfString? s with
      | none => simp [h0]
      | some v => simp

theorem intToDecString_ne_empty (v : Int) : intToDecString v ≠ "" := by
  unfold intToDecString natToDecString
  by_cases hv : v < 0
  · simp only [hv, if_true]
    intro h
    have : ('-' :: natToDecCharsBE v.natAbs) = [] := congrArg String.data h
    simp at this
  · simp only [hv, if_false]
    intro h
    have hd : natToDecCharsBE v.toNat = ([] : List Char) := congrArg String.data h
    unfold natToDecCharsBE at hd
    by_cases h0 : v.toNat = 0
    · simp [h0] at hd
    · simp only [h0, if_false] at hd
      have := natDecDigits_ne_nil v.toNat h0
      simp at hd
      exact this hd

theorem hexToDecimalString_ne_empty (h : Option String) :
    hexToDecimalString h ≠ "" := by
  rw [hexToDecimalString_eq_clamp]
  exact intToDecString_ne_empty _

theorem splitAtDot_no_dot (l : List Char) (h : ∀ c ∈ l, c ≠ '.') :
    splitAtDot l = (l, []) := by
  induction l with
  | nil => rfl
  | cons c cs ih =>
    have hc : c ≠ '.' := h c (by simp)
    simp only [splitAtDot, hc, if_false]
    rw [ih fun x hx => h x (by simp [hx])]

theorem splitAtDot_append (w f : List Char) (h : ∀ c ∈ w, c ≠ '.') :
    splitAtDot (w ++ '.' :: f) = (w, f) := by
  induction w with
  | nil => simp [splitAtDot]
  | cons c cs ih =>
    have hc : c ≠ '.' := h c (by simp)
    simp only [List.cons_append, splitAtDot, hc, if_false, List.append_eq]
    rw [ih fun x hx => h x (by simp [hx])]

theorem stripTrailingZeroChars_spec (l : List Char) :
    l = stripTrailingZeroChars l ++
      List.replicate (l.length - (stripTrailingZeroChars l).length) '0' := by
  unfold stripTrailingZeroChars
  set p : Char → Bool := fun c => c = '0' with hp
  have hsplit : l.reverse.takeWhile p ++ l.reverse.dropWhile p = l.reverse :=
    List.takeWhile_append_dropWhile p l.reverse
  have htake : ∀ c ∈ l.reverse.takeWhile p, c = '0' := by
    intro c hc
    have := List.mem_takeWhile_imp hc
    simpa [hp] using this
  have hrep : l.reverse.takeWhile p =
      List.replicate (l.reverse.takeWhile p).length '0' := by
    rw [List.eq_replicate_iff]
    exact ⟨rfl, htake⟩
  have hl : l = (l.reverse.dropWhile p).reverse ++
      List.replicate (l.reverse.takeWhile p).length '0' := by
    conv_lhs => rw [← l.reverse_reverse, ← hsplit]
    rw [List.reverse_append, hrep]
    simp
  conv_lhs => rw [hl]
  congr 2
  have hlen : l.length =
      (l.reverse.dropWhile p).length + (l.reverse.takeWhile p).length := by
    have h2 := congrArg List.length hsplit
    rw [List.length_append, List.length_reverse] at h2
    omega
  simp [hlen]

theorem decCharsValBE_replicate (k : Nat) :
    decCharsValBE (List.replicate k '0') = 0 := by
  have := decCharsValBE_replicate_zero k []
  simpa using this

theorem intToDecString_ofNat (n : Nat) :
    intToDecString (n : Int) = natToDecString n := by
  unfold intToDecString
  have hn : ¬((n : Int) < 0) := by omega
  simp [hn]

theorem natToDecCharsBE_no_dot (n : Nat) :
    ∀ c ∈ natToDecCharsBE n, c ≠ '.' := by
  intro c hc
  have := natToDecCharsBE_mem_range n c hc
  intro h
  subst h
  simp at this

theorem tdiv_tmod_ofNat (r m : Nat) :
    ((r : Int).tdiv (m : Int) = ((r / m : Nat) : Int)) ∧
      ((r : Int).tmod (m : Int) = ((r % m : Nat) : Int)) :=
  ⟨rfl, rfl⟩

theorem decimalRender_round_trip (r d : Nat) :
    parseDecimalRender (decimalRender (r : Int) d) d = r ∧
    (r % 10 ^ d = 0 → decimalRender (r : Int) d = natToDecString (r / 10 ^ d)) := by
  have hbase : ((10 : Int) ^ d) = ((10 ^ d : Nat) : Int) := by push_cast; ring
  have htdiv : (r : Int).tdiv ((10 : Int) ^ d) = ((r / 10 ^ d : Nat) : Int) := by
    rw [hbase]; exact (tdiv_tmod_ofNat r (10 ^ d)).1
  have htmod : (r : Int).tmod ((10 : Int) ^ d) = ((r % 10 ^ d : Nat) : Int) := by
    rw [hbase]; exact (tdiv_tmod_ofNat r (10 ^ d)).2
  have hrender : decimalRender (r : Int) d =
      (if (r % 10 ^ d : Nat) = 0 then natToDecString (r / 10 ^ d)
       else ⟨natToDecCharsBE (r / 10 ^ d) ++
          '.' :: stripTrailingZeroChars
            (padStartChars d '0' (natToDecCharsBE (r % 10 ^ d)))⟩) := by
    unfold decimalRender
    simp only [htdiv, htmod]
    by_cases hf : (r % 10 ^ d : Nat) = 0
    · have hz : (((r % 10 ^ d : Nat) : Int)) = 0 := by simp [hf]
      rw [if_pos hz, if_pos hf, intToDecString_ofNat]
    · have hz : ¬(((r % 10 ^ d : Nat) : Int)) = 0 := by omega
      rw [if_neg hz, if_neg hf]
      simp only [intToDecString_ofNat, natToDecString]
  by_cases hf : r % 10 ^ d = 0
  · refine ⟨?_, fun _ => by rw [hrender, if_pos hf]⟩
    rw [hrender, if_pos hf]
    unfold parseDecimalRender natToDecString
    rw [splitAtDot_no_dot _ (natToDecCharsBE_no_dot _)]
    simp only
    rw [decCharsValBE_natToDecCharsBE]
    have hpad : padRightChars d '0' [] = List.replicate d '0' := by
      simp [padRightChars]
    rw [hpad, decCharsValBE_replicate]
    have h2 : r / 10 ^ d * 10 ^ d + r % 10 ^ d = r := by
      conv_rhs => rw [← Nat.div_add_mod r (10 ^ d)]
      ring
    omega
  · refine ⟨?_, fun h => absurd h hf⟩
    rw [hrender, if_neg hf]
    unfold parseDecimalRender
    simp only
    set f := r % 10 ^ d with hfdef
    set w := r / 10 ^ d with hwdef
    set L := padStartChars d '0' (natToDecCharsBE f) with hL
    have hflt : f < 10 ^ d := Nat.mod_lt _ (by positivity)
    have hdigLen : (natToDecCharsBE f).length ≤ d := by
      unfold natToDecCharsBE
      by_cases h0 : f = 0
      · exact absurd h0 hf
      · simp only [h0, if_false, List.length_reverse, List.length_map]
        exact natDecDigits_length f d hflt
    have hLlen : L.length = d := by
      rw [hL]
      unfold padStartChars
      rw [List.length_append, List.length_replicate]
      omega
    have hLval : decCharsValBE L = f := by
      rw [hL]
      unfold padStartChars
      rw [decCharsValBE_replicate_zero, decCharsValBE_natToDecCharsBE]
    set stripped := stripTrailingZeroChars L with hs
    have hstr := stripTrailingZeroChars_spec L
    rw [← hs] at hstr
    have hslen : stripped.length ≤ d := by
      have := congrArg List.length hstr
      rw [List.length_append, List.length_replicate] at this
      omega
    have hpadR : padRightChars d '0' stripped = L := by
      unfold padRightChars
      conv_rhs => rw [hstr]
      congr 1
      have := congrArg List.length hstr
      rw [List.length_append, List.length_replicate] at this
      congr 1
      omega
    rw [splitAtDot_append _ _ (natToDecCharsBE_no_dot _)]
    simp only
    rw [decCharsValBE_natToDecCharsBE, hpadR, hLval]
    have h2 : w * 10 ^ d + f = r := by
      rw [hwdef, hfdef]
      conv_rhs => rw [← Nat.div_add_mod r (10 ^ d)]
      ring
    omega

/-! ## Claim theorems -/

theorem jsBigIntOfString?_hexToDecimalString (o : Option String) :
    jsBigIntOfString? (hexToDecimalString o) = some (clampParseInt o) := by
  rw [hexToDecimalString_eq_clamp]
  exact jsBigIntOfString?_intToDecString _

/-- C3: for all reported computation cost `c`, storage cost `s` and storage
rebate `r` (each put through the clamp-to-zero parse), the resource-accounting
fee resolver returns `total = c + s - r` in exact signed arithmetic with no
clamping at zero; in particular `c=100, s=50, r=30` gives `120` and
`c=10, s=0, r=50` gives `-40`. -/
theorem c3_resource_fee_signed_total :
    (∀ g : SuiGasUsed,
      suiTotalGasCost g = some (clampParseInt g.computationCost +
        clampParseInt g.storageCost - clampParseInt g.storageRebate)) ∧
    suiTotalGasCost ⟨some "100", some "50", some "30"⟩ = some 120 ∧
    suiTotalGasCost ⟨some "10", some "0", some "50"⟩ = some (-40) := by
  refine ⟨fun g => ?_, by decide, by decide⟩
  unfold suiTotalGasCost
  rw [jsBigIntOfString?_hexToDecimalString, jsBigIntOfString?_hexToDecimalString,
    jsBigIntOfString?_hexToDecimalString]
  rfl

/-- C4: for every non-negative integer `r` and decimal count `d`, the decimal
formatter round-trips — reading the produced string as a whole and a
fractional part (right-padded with zeros back to `d` digits) and computing
`whole * 10^d + fractional` reproduces `r`; when the fractional part is zero
only the whole part is emitted. -/
theorem c4_decimal_format_round_trip (r d : Nat) :
    parseDecimalRender (decimalRender (r : Int) d) d = r ∧
    (r % 10 ^ d = 0 → decimalRender (r : Int) d = natToDecString (r / 10 ^ d)) :=
  decimalRender_round_trip r d

/-- Witness for C4 at `r = 1500000, d = 6` (the spec example, rendering
`"1.5"`) and at a multiple of `10^6` for the zero-fraction clause. -/
theorem c4_decimal_format_round_trip_witness :
    parseDecimalRender (decimalRender ((1500000 : Nat) : Int) 6) 6 = 1500000 ∧
    decimalRender ((2000000 : Nat) : Int) 6 = natToDecString 2 :=
  ⟨(c4_decimal_format_round_trip 1500000 6).1,
   (c4_decimal_format_round_trip 2000000 6).2 (by decide)⟩

/-- C8 (amended): on malformed (non-numeric) raw input the amount formatters
never throw, but they do not pass the raw string through — the amount
degrades to `"0"` (the clamp-to-zero parse of the input); only the unit
label is the same one a valid amount would get. -/
theorem c8_amended_malformed_amount_clamps (tc ct : Option String) (ra : String)
    (h1 : ra ≠ "") (h2 : jsBigIntOfString? ra = none) :
    (formatTokenAmount tc (some ra)).1 = "0" ∧
    (formatCoinAmount ct (some ra)).1 = "0" ∧
    (formatTokenAmount tc (some ra)).2 = (formatTokenAmount tc (some "1")).2 ∧
    (formatCoinAmount ct (some ra)).2 = (formatCoinAmount ct (some "1")).2 := by
  have hhex : hexToDecimalString (some ra) = "0" := by
    unfold hexToDecimalString
    simp [h1, h2]
  have h1' : ("1" : String) ≠ "" := by decide
  have hjs : jsBigIntOfString? "1" = some 1 := by decide
  unfold formatTokenAmount formatCoinAmount
  simp only [h1, if_false, h2, hhex, h1', hjs]
  refine ⟨trivial, trivial, ?_, ?_⟩ <;> cases tc <;> cases ct <;> simp

/-- C8 counterexample: on the malformed amount `"abc"` the formatter returns
amount `"0"`, not the raw input string — literal passthrough does not
happen. -/
theorem c8_counterexample_not_passthrough :
    formatTokenAmount none (some "abc") = ("0", "tokens") ∧
    formatCoinAmount none (some "abc") = ("0", "coins") ∧
    ("0" : String) ≠ "abc" := by decide

/-- Witness for the amended C8 at the concrete malformed input
`"not-a-number"`. -/
theorem c8_amended_witness :
    (formatTokenAmount none (some "not-a-number")).1 = "0" ∧
    (formatCoinAmount none (some "not-a-number")).1 = "0" :=
  have h := c8_amended_malformed_amount_clamps none none "not-a-number"
    (by decide) (by decide)
  ⟨h.1, h.2.1⟩

theorem parseDigitsAux_mem_isSome {base : Nat} {dv : Char → Option Nat} :
    ∀ l acc n, parseDigitsAux base dv l acc = some n → ∀ c ∈ l, (dv c).isSome := by
  intro l
  induction l with
  | nil => intro acc n _ c hc; simp at hc
  | cons a t ih =>
    intro acc n h c hc
    unfold parseDigitsAux at h
    cases hdv : dv a with
    | none => rw [hdv] at h; simp at h
    | some d =>
      rw [hdv] at h
      rcases List.mem_cons.mp hc with rfl | hct
      · simp [hdv]
      · exact ih _ n h c hct

theorem parseDigits_ne_nil {base : Nat} {dv : Char → Option Nat} {l : List Char}
    {n : Nat} (h : parseDigits base dv l = some n) : l ≠ [] := by
  intro he
  subst he
  simp [parseDigits] at h

theorem parseDigits_mem_isSome {base : Nat} {dv : Char → Option Nat}
    {l : List Char} {n : Nat} (h : parseDigits base dv l = some n) :
    ∀ c ∈ l, (dv c).isSome := by
  have hne := parseDigits_ne_nil h
  unfold parseDigits at h
  cases l with
  | nil => simp at hne
  | cons a t => exact parseDigitsAux_mem_isSome _ _ _ h

theorem decDigitVal?_isSome_range {c : Char} (h : (decDigitVal? c).isSome) :
    48 ≤ c.toNat ∧ c.toNat ≤ 57 := by
  unfold decDigitVal? at h
  split at h
  · assumption
  · simp at h

theorem hexDigitVal?_isSome_range {c : Char} (h : (hexDigitVal? c).isSome) :
    33 ≤ c.toNat ∧ c.toNat ≤ 159 := by
  unfold hexDigitVal? at h
  split at h
  · omega
  · split at h
    · omega
    · split at h
      · omega
      · simp at h

theorem jsBigIntChars?_dec_list (l : List Char)
    (hrange : ∀ c ∈ l, 48 ≤ c.toNat ∧ c.toNat ≤ 57) (hne : l ≠ []) :
    jsBigIntChars? l = (parseDigits 10 decDigitVal? l).map Int.ofNat := by
  obtain ⟨a, t, rfl⟩ := List.exists_cons_of_ne_nil hne
  have ha := hrange a (by simp)
  have ha1 : a ≠ '-' := by intro h; subst h; simp at ha
  have ha2 : a ≠ '+' := by intro h; subst h; simp at ha
  unfold jsBigIntChars?
  simp only [ha1, ha2, if_false]
  by_cases ha0 : a = '0'
  · subst ha0
    cases t with
    | nil => simp [parseDigits, parseDigitsAux, decDigitVal?]
    | cons c t2 =>
      have hc := hrange c (by simp)
      have hx : (c = 'x' || c = 'X') = false := by
        have hc1 : c ≠ 'x' := by intro h; subst h; simp at hc
        have hc2 : c ≠ 'X' := by intro h; subst h; simp at hc
        simp [hc1, hc2]
      have ho : (c = 'o' || c = 'O') = false := by
        have hc1 : c ≠ 'o' := by intro h; subst h; simp at hc
        have hc2 : c ≠ 'O' := by intro h; subst h; simp at hc
        simp [hc1, hc2]
      have hb : (c = 'b' || c = 'B') = false := by
        have hc1 : c ≠ 'b' := by intro h; subst h; simp at hc
        have hc2 : c ≠ 'B' := by intro h; subst h; simp at hc
        simp [hc1, hc2]
      simp [hx, ho, hb]
  · simp [ha0]

theorem stringNeEmpty_of_data {s : String} {a : Char} {t : List Char}
    (h : s.data = a :: t) : s ≠ "" := by
  intro he
  subst he
  simp at h

theorem jsBigIntOfString?_of_specIntLiteral {s : String} {v : Int}
    (h : specIntLiteral? s = some v) :
    jsBigIntOfString? s = some v ∧ s ≠ "" := by
  unfold specIntLiteral? at h
  unfold jsBigIntOfString?
  split at h
  · next rest heq =>
    obtain ⟨n, hn, rfl⟩ := Option.map_eq_some'.mp h
    have hvalid := parseDigits_mem_isSome hn
    have hne := parseDigits_ne_nil hn
    have htrim : jsTrimChars s.data = s.data := by
      apply jsTrimChars_eq_self
      intro c hc
      rw [heq] at hc
      rcases List.mem_cons.mp hc with rfl | hc2
      · decide
      · rcases List.mem_cons.mp hc2 with rfl | hc3
        · decide
        · have := hexDigitVal?_isSome_range (hvalid c hc3)
          exact isJsWhitespace_range this.1 this.2
    rw [htrim, heq]
    refine ⟨?_, stringNeEmpty_of_data heq⟩
    unfold jsBigIntChars?
    simp [hn]
  · next rest heq =>
    obtain ⟨n, hn, rfl⟩ := Option.map_eq_some'.mp h
    have hvalid := parseDigits_mem_isSome hn
    have htrim : jsTrimChars s.data = s.data := by
      apply jsTrimChars_eq_self
      intro c hc
      rw [heq] at hc
      rcases List.mem_cons.mp hc with rfl | hc2
      · decide
      · have := decDigitVal?_isSome_range (hvalid c hc2)
        exact isJsWhitespace_range (by omega) (by omega)
    rw [htrim, heq]
    refine ⟨?_, stringNeEmpty_of_data heq⟩
    unfold jsBigIntChars?
    simp [hn]
  · next hne1 hne2 =>
    obtain ⟨n, hn, rfl⟩ := Option.map_eq_some'.mp h
    have hvalid := parseDigits_mem_isSome hn
    have hrange : ∀ c ∈ s.data, 48 ≤ c.toNat ∧ c.toNat ≤ 57 := by
      intro c hc
      exact decDigitVal?_isSome_range (hvalid c hc)
    have hnil := parseDigits_ne_nil hn
    have htrim : jsTrimChars s.data = s.data := by
      apply jsTrimChars_eq_self
      intro c hc
      have := hrange c hc
      exact isJsWhitespace_range (by omega) (by omega)
    rw [htrim, jsBigIntChars?_dec_list _ hrange hnil, hn]
    refine ⟨rfl, ?_⟩
    obtain ⟨a, t, heq⟩ := List.exists_cons_of_ne_nil hnil
    exact stringNeEmpty_of_data heq

/-- C5 (amended): `parseIntegerOrZero` never throws and returns `"0"` on a
missing argument; every base-10 or `0x`-prefixed base-16 literal is parsed
to its value; but an input that fails the whole JavaScript `BigInt` grammar
(which additionally accepts `0o` / `0b` prefixes and surrounding whitespace)
is what yields `"0"` — not every input outside the base-10/base-16
formats. -/
theorem c5_amended_parse_integer_or_zero (s : String) :
    (∀ v : Int, specIntLiteral? s = some v →
      hexToDecimalString (some s) = intToDecString v) ∧
    (jsBigIntOfString? s = none → hexToDecimalString (some s) = "0") ∧
    hexToDecimalString none = "0" := by
  refine ⟨fun v h => ?_, fun h => ?_, rfl⟩
  · obtain ⟨hjs, hne⟩ := jsBigIntOfString?_of_specIntLiteral h
    unfold hexToDecimalString
    simp [hne, hjs]
  · unfold hexToDecimalString
    by_cases hse : s = ""
    · simp [hse]
    · simp [hse, h]

/-- C5 counterexample: `"0o777"` is not a base-10 or `0x`-prefixed base-16
integer literal, yet the parser returns `"511"`, not `"0"`. -/
theorem c5_counterexample_octal_literal :
    specIntLiteral? "0o777" = none ∧
    hexToDecimalString (some "0o777") = "511" ∧
    ("511" : String) ≠ "0" := by decide

/-- Witness for the amended C5: a hexadecimal literal parses to its value
and a malformed string clamps to `"0"`. -/
theorem c5_amended_witness :
    hexToDecimalString (some "0x1f") = intToDecString 31 ∧
    hexToDecimalString (some "zz") = "0" :=
  ⟨(c5_amended_parse_integer_or_zero "0x1f").1 31 (by decide),
   (c5_amended_parse_integer_or_zero "zz").2.1 (by decide)⟩

/-- C9 (amended): the object-model event decoder emits a coin-transfer
record for a transfer-typed event only when both `amount` and `recipient`
are present and non-empty; then a missing asset type defaults to the native
coin and a missing sender to `"unknown"`; an event lacking `amount` or
`recipient` is discarded, not defaulted. -/
theorem c9_amended_transfer_event_decoding :
    (∀ (pre post : List SuiEvent) (e : SuiEvent),
      parseCoinTransfers (some (pre ++ e :: post)) =
        parseCoinTransfers (some pre) ++ (coinTransferOfEvent e).toList ++
        parseCoinTransfers (some post)) ∧
    (∀ (e : SuiEvent) (ty : String), e.type = some ty →
      containsSubChars "Transfer".data ty.data = true →
      ((∀ am rc, e.amount = some am → e.recipient = some rc → am ≠ "" → rc ≠ "" →
        coinTransferOfEvent e = some ⟨jsOrDefault e.coin_type "0x2::sui::SUI",
          jsOrDefault e.sender "unknown", rc, am⟩) ∧
       ((e.amount = none ∨ e.amount = some "" ∨ e.recipient = none ∨
          e.recipient = some "") → coinTransferOfEvent e = none))) := by
  constructor
  · intro pre post e
    cases hfe : coinTransferOfEvent e <;>
      simp [parseCoinTransfers, List.filterMap_append, List.filterMap_cons, hfe]
  · intro e ty hty hcont
    constructor
    · intro am rc ham hrc hamne hrcne
      unfold coinTransferOfEvent
      rw [hty]
      simp only [hcont, if_true, ham, hrc]
      simp [hamne, hrcne]
    · intro hdisj
      unfold coinTransferOfEvent
      rw [hty]
      simp only [hcont, if_true]
      rcases hdisj with h | h | h | h
      · rw [h]
      · rw [h]
        cases e.recipient <;> simp
      · rw [h]
        cases e.amount <;> simp
      · rw [h]
        cases e.amount <;> simp

/-- C9 counterexample: an event whose type is transfer-shaped but whose
payload lacks the amount is discarded — no record with defaulted fields is
emitted. -/
theorem c9_counterexample_missing_amount_discards :
    parseCoinTransfers
        (some [(⟨some "Transfer", none, none, some "0xabc", none⟩ : SuiEvent)]) = [] ∧
    containsSubChars "Transfer".data "Transfer".data = true := by decide

/-- Witness for the amended C9: a transfer event with amount and recipient
and no coin type / sender decodes to a record with the ledger defaults. -/
theorem c9_amended_witness :
    coinTransferOfEvent evC9 = some ⟨"0x2::sui::SUI", "unknown", "0xr", "5"⟩ ∧
    parseCoinTransfers (some [evC9]) = [⟨"0x2::sui::SUI", "unknown", "0xr", "5"⟩] := by
  have h1 := (c9_amended_transfer_event_decoding.2 evC9
    "0x2::pay::PayTransferEvent" rfl (by decide)).1 "5" "0xr" rfl rfl
    (by decide) (by decide)
  have h1' : coinTransferOfEvent evC9 =
      some ⟨"0x2::sui::SUI", "unknown", "0xr", "5"⟩ := by
    rw [h1]
    exact rfl
  have h3 := c9_amended_transfer_event_decoding.1 [] [] evC9
  rw [h1'] at h3
  exact ⟨h1', by simpa using h3⟩

theorem arbL2Fee_spec (receipt : Option RpcReceipt) (o : Option String) (v : Int)
    (h : arbL2Fee receipt (hexToDecimalString o) = some v) :
    v = clampParseInt (receipt.map fun r => r.gasUsed) * clampParseInt o := by
  cases receipt with
  | none =>
    simp [arbL2Fee] at h
    simp [clampParseInt, ← h]
  | some r =>
    simp only [arbL2Fee] at h
    by_cases hgu : r.gasUsed = ""
    · have hcond : ¬(r.gasUsed ≠ "" ∧ hexToDecimalString o ≠ "") := by
        intro hc
        exact hc.1 hgu
      rw [if_neg hcond] at h
      simp at h
      simp [clampParseInt, hgu, ← h]
    · rw [if_pos ⟨hgu, hexToDecimalString_ne_empty o⟩] at h
      cases hparse : jsBigIntOfString? r.gasUsed with
      | none => rw [hparse] at h; simp at h
      | some a =>
        rw [hparse, jsBigIntOfString?_hexToDecimalString] at h
        simp at h
        simp [clampParseInt, hgu, hparse, ← h]

theorem arbDirectL1_spec (receipt : Option RpcReceipt) (v : Int)
    (h : arbDirectL1 receipt = some v) :
    v = clampParseInt (receipt.bind fun r => r.l1Fee) := by
  cases receipt with
  | none =>
    simp [arbDirectL1] at h
    simp [clampParseInt, ← h]
  | some r =>
    simp only [arbDirectL1] at h
    cases hf : r.l1Fee with
    | none =>
      rw [hf] at h
      simp [arbDirectL1Fee] at h
      simp [clampParseInt, hf, ← h]
    | some f =>
      rw [hf] at h
      simp only [arbDirectL1Fee] at h
      by_cases hfe : f = ""
      · simp [hfe] at h
        simp [clampParseInt, hf, hfe, ← h]
      · rw [if_pos hfe] at h
        simp [clampParseInt, hf, hfe, h]

theorem arbFallbackL1_spec (receipt : Option RpcReceipt) (l1 w : Int)
    (h : arbFallbackL1 receipt l1 = some w) :
    w = if l1 = 0 ∧ jsTruthy (receipt.bind fun r => r.l1GasPrice) = true ∧
          jsTruthy (receipt.bind fun r => r.l1GasUsed) = true then
        clampParseInt (receipt.bind fun r => r.l1GasPrice) *
          clampParseInt (receipt.bind fun r => r.l1GasUsed)
      else l1 := by
  unfold arbFallbackL1 at h
  by_cases hc : l1 = 0 ∧ jsTruthy (receipt.bind fun r => r.l1GasPrice) = true ∧
      jsTruthy (receipt.bind fun r => r.l1GasUsed) = true
  · rw [if_pos hc] at h
    rw [if_pos hc]
    obtain ⟨sp, hsp, hspne⟩ : ∃ sp, (receipt.bind fun r => r.l1GasPrice) = some sp ∧
        sp ≠ "" := by
      cases ho : receipt.bind fun r => r.l1GasPrice with
      | none => rw [ho] at hc; simp [jsTruthy] at hc
      | some sp =>
        refine ⟨sp, rfl, ?_⟩
        rw [ho] at hc
        have := hc.2.1
        simp [jsTruthy] at this
        exact this
    obtain ⟨su, hsu, hsune⟩ : ∃ su, (receipt.bind fun r => r.l1GasUsed) = some su ∧
        su ≠ "" := by
      cases ho : receipt.bind fun r => r.l1GasUsed with
      | none => rw [ho] at hc; simp [jsTruthy] at hc
      | some su =>
        refine ⟨su, rfl, ?_⟩
        rw [ho] at hc
        have := hc.2.2
        simp [jsTruthy] at this
        exact this
    rw [hsp, hsu] at h
    simp only [Option.getD_some] at h
    cases hp : jsBigIntOfString? sp with
    | none => rw [hp] at h; simp at h
    | some p =>
      cases hu : jsBigIntOfString? su with
      | none => rw [hp, hu] at h; simp at h
      | some u =>
        rw [hp, hu] at h
        simp at h
        simp [hsp, hsu, clampParseInt, hspne, hsune, hp, hu, ← h]
  · rw [if_neg hc] at h
    rw [if_neg hc]
    simp at h
    omega

/-- C2 (amended): whenever the byte-oriented fee computation completes,
`executionCost` (`l2FeeWei`) is `gasUsed * effectiveGasPrice` with the price
resolved receipt-effective-price / max-fee / legacy-price / zero; the
*reported* `dataOrStorageCost` (`l1FeeWei`) is the directly reported L1 fee
when that is nonzero, else the `l1GasPrice * l1GasUsed` product when both
are truthy, else the direct value; but the reported total is
`executionCost + direct L1 fee` only — the fallback-derived storage cost is
*not* included in the total, contrary to the original claim. -/
theorem c2_amended_fee_resolution (tx : RpcTransaction)
    (receipt : Option RpcReceipt) (out : ArbFeeSummary)
    (h : arbFee tx receipt = some out) :
    out.gasUsed = intToDecString (clampParseInt (receipt.map fun r => r.gasUsed)) ∧
    out.effectiveGasPriceWei = intToDecString (resolvedGasPrice tx receipt) ∧
    out.l2FeeWei = intToDecString (clampParseInt (receipt.map fun r => r.gasUsed) *
      resolvedGasPrice tx receipt) ∧
    out.totalFeeWei = intToDecString
      (clampParseInt (receipt.map fun r => r.gasUsed) * resolvedGasPrice tx receipt +
        clampParseInt (receipt.bind fun r => r.l1Fee)) ∧
    out.l1FeeWei = intToDecString
      (if clampParseInt (receipt.bind fun r => r.l1Fee) = 0 ∧
          jsTruthy (receipt.bind fun r => r.l1GasPrice) = true ∧
          jsTruthy (receipt.bind fun r => r.l1GasUsed) = true then
        clampParseInt (receipt.bind fun r => r.l1GasPrice) *
          clampParseInt (receipt.bind fun r => r.l1GasUsed)
      else clampParseInt (receipt.bind fun r => r.l1Fee)) := by
  unfold arbFee at h
  obtain ⟨l2, hl2, h⟩ := Option.bind_eq_some.mp h
  obtain ⟨l1, hl1, h⟩ := Option.bind_eq_some.mp h
  obtain ⟨calcv, hcalc, h⟩ := Option.bind_eq_some.mp h
  have hl2v := arbL2Fee_spec receipt _ l2 hl2
  have hl1v := arbDirectL1_spec receipt l1 hl1
  have hcalcv := arbFallbackL1_spec receipt l1 calcv hcalc
  obtain rfl := Option.some_inj.mp h
  subst hl1v
  refine ⟨?_, ?_, ?_, ?_, ?_⟩
  · exact hexToDecimalString_eq_clamp _
  · show hexToDecimalString (some _) = _
    rw [hexToDecimalString_eq_clamp]
    exact rfl
  · show intToDecString l2 = _
    rw [hl2v]
    exact rfl
  · show intToDecString (l2 + clampParseInt (receipt.bind fun r => r.l1Fee)) = _
    rw [hl2v]
    exact rfl
  · show intToDecString calcv = _
    rw [hcalcv]

/-- C2 counterexample: with `gasUsed = 1`, `effectiveGasPrice = 1`, no
direct L1 fee, and `l1GasPrice * l1GasUsed = 6`, the handler reports
`dataOrStorageCost = "6"` but `total = "1"`, whereas the claim requires
`total = executionCost + dataOrStorageCost = 7`. -/
theorem c2_counterexample_total_omits_fallback :
    arbFee txC2 (some receiptC2) =
      some { gasUsed := "1", effectiveGasPriceWei := "1", totalFeeWei := "1",
             l2FeeWei := "1", l1FeeWei := "6" } ∧
    intToDecString (1 * 1 + 2 * 3) = "7" ∧ ("1" : String) ≠ "7" := by decide

/-- Witness for the amended C2 at a concrete receipt: the completed
computation satisfies the amended total equation. -/
theorem c2_amended_fee_resolution_witness :
    arbFee txC2 (some receiptC2w) =
      some { gasUsed := "2", effectiveGasPriceWei := "3", totalFeeWei := "6",
             l2FeeWei := "6", l1FeeWei := "0" } ∧
    intToDecString (clampParseInt ((some receiptC2w).map fun r => r.gasUsed) *
      resolvedGasPrice txC2 (some receiptC2w) +
      clampParseInt ((some receiptC2w).bind fun r => r.l1Fee)) = "6" := by
  have h : arbFee txC2 (some receiptC2w) =
      some { gasUsed := "2", effectiveGasPriceWei := "3", totalFeeWei := "6",
             l2FeeWei := "6", l1FeeWei := "0" } := by decide
  have h2 := (c2_amended_fee_resolution txC2 (some receiptC2w) _ h).2.2.2.1
  exact ⟨h, h2.symm⟩

theorem parseDigitsAux_hex_valid (l : List Char) (acc : Nat)
    (h : ∀ c ∈ l, (hexDigitVal? c).isSome) :
    parseDigitsAux 16 hexDigitVal? l acc =
      some (acc * 16 ^ l.length + hexValBE l) := by
  induction l generalizing acc with
  | nil => simp [parseDigitsAux, hexValBE]
  | cons c cs ih =>
    obtain ⟨d, hd⟩ := Option.isSome_iff_exists.mp (h c (by simp))
    have hcs : ∀ x ∈ cs, (hexDigitVal? x).isSome := fun x hx => h x (by simp [hx])
    have hv : hexValBE (c :: cs) = d * 16 ^ cs.length + hexValBE cs := by
      simp only [hexValBE, hd, Option.getD_some]
    unfold parseDigitsAux
    simp only [hd]
    rw [ih _ hcs, hv, List.length_cons]
    congr 1
    ring

theorem parseDigits_hex (l : List Char)
    (h : ∀ c ∈ l, (hexDigitVal? c).isSome) (hne : l ≠ []) :
    parseDigits 16 hexDigitVal? l = some (hexValBE l) := by
  obtain ⟨a, t, rfl⟩ := List.exists_cons_of_ne_nil hne
  unfold parseDigits
  rw [parseDigitsAux_hex_valid _ 0 h]
  simp

theorem jsBigIntOfString?_hexLiteral (ds : List Char)
    (h : ∀ c ∈ ds, (hexDigitVal? c).isSome) (hne : ds ≠ []) :
    jsBigIntOfString? ⟨'0' :: 'x' :: ds⟩ = some (Int.ofNat (hexValBE ds)) := by
  unfold jsBigIntOfString?
  have htrim : jsTrimChars (String.mk ('0' :: 'x' :: ds)).data =
      '0' :: 'x' :: ds := by
    apply jsTrimChars_eq_self
    intro c hc
    rcases List.mem_cons.mp hc with rfl | hc2
    · decide
    · rcases List.mem_cons.mp hc2 with rfl | hc3
      · decide
      · have := hexDigitVal?_isSome_range (h c hc3)
        exact isJsWhitespace_range this.1 this.2
  rw [htrim]
  unfold jsBigIntChars?
  simp [parseDigits_hex ds h hne]

theorem hexToDecimalString_hexLiteral (ds : List Char)
    (h : ∀ c ∈ ds, (hexDigitVal? c).isSome) (hne : ds ≠ []) :
    hexToDecimalString (some (⟨'0' :: 'x' :: ds⟩ : String)) =
      natToDecString (hexValBE ds) := by
  have hne2 : (⟨'0' :: 'x' :: ds⟩ : String) ≠ "" :=
    stringNeEmpty_of_data (s := ⟨'0' :: 'x' :: ds⟩) rfl
  unfold hexToDecimalString
  simp only [hne2, if_false, jsBigIntOfString?_hexLiteral ds h hne]
  exact intToDecString_ofNat _

/-- C1: an event whose lowercased first topic is the canonical transfer
signature decodes, with exactly 3 topics, to an `ERC20` (fungible) transfer
whose amount is the big-endian integer value of the payload, and, with
exactly 4 topics, to an `ERC721` (non-fungible) transfer with amount fixed
at `1` and token id decoded from the 4th topic — two events with the same
signature but 3 vs 4 topics therefore always produce different transfer
kinds; and the decoder processes any raw event list elementwise. -/
theorem c1_transfer_topic_disambiguation :
    (∀ (pre post : List RpcLog) (e : RpcLog),
      parseTokenTransfers (pre ++ e :: post) =
        parseTokenTransfers pre ++ (decodeLog e).toList ++
          parseTokenTransfers post) ∧
    (∀ (e : RpcLog) (t0 : String), e.topics.head? = some t0 →
      toLowerString t0 = ERC20_TRANSFER_TOPIC →
      ((e.topics.length = 3 →
        decodeLog e = some ⟨e.address, topicAddress (e.topics.get? 1),
          topicAddress (e.topics.get? 2),
          (if e.data = "" then "0x0" else e.data), none, TransferStd.ERC20⟩) ∧
       (e.topics.length = 4 →
        decodeLog e = some ⟨e.address, topicAddress (e.topics.get? 1),
          topicAddress (e.topics.get? 2), "0x1",
          some (hexToDecimalString (e.topics.get? 3)), TransferStd.ERC721⟩) ∧
       (∀ ds, e.data.data = '0' :: 'x' :: ds → ds ≠ [] →
         (∀ c ∈ ds, (hexDigitVal? c).isSome) →
         hexToDecimalString (some (if e.data = "" then "0x0" else e.data)) =
           natToDecString (hexValBE ds)) ∧
       hexToDecimalString (some "0x1") = "1" ∧
       (∀ tr : TokenTransfer, tr.transferType = TransferStd.ERC721 →
         (arbActionOfTransfer tr).amount = some "1") ∧
       TransferStd.ERC20 ≠ TransferStd.ERC721)) := by
  constructor
  · intro pre post e
    cases hfe : decodeLog e <;>
      simp [parseTokenTransfers, List.filterMap_append, List.filterMap_cons, hfe]
  · intro e t0 hhead hlow
    have htop : (e.topics.head?).map toLowerString = some ERC20_TRANSFER_TOPIC := by
      rw [hhead, Option.map_some', hlow]
    refine ⟨?_, ?_, ?_, by decide, ?_, by decide⟩
    · intro hlen
      unfold decodeLog
      rw [if_pos ⟨htop, hlen⟩]
    · intro hlen
      unfold decodeLog
      rw [if_neg (fun hc => by have := hc.2; omega),
        if_pos ⟨htop.trans (show some ERC20_TRANSFER_TOPIC =
          some ERC721_TRANSFER_TOPIC from rfl), hlen⟩]
    · intro ds hdata hne hvalid
      have hdne : e.data ≠ "" := stringNeEmpty_of_data hdata
      rw [if_neg hdne]
      have : e.data = ⟨'0' :: 'x' :: ds⟩ := by
        have h1 : e.data = ⟨e.data.data⟩ := rfl
        rw [h1, hdata]
      rw [this]
      exact hexToDecimalString_hexLiteral ds hvalid hne
    · intro tr htr
      unfold arbActionOfTransfer
      rw [htr]

/-- Witness for C1 at two concrete events sharing an (uppercase) transfer
signature: 3 topics decode to a fungible transfer whose amount is the
big-endian payload value 5, 4 topics to a non-fungible transfer. -/
theorem c1_transfer_topic_disambiguation_witness :
    decodeLog logC1a = some ⟨logC1a.address, topicAddress (logC1a.topics.get? 1),
      topicAddress (logC1a.topics.get? 2),
      (if logC1a.data = "" then "0x0" else logC1a.data), none,
      TransferStd.ERC20⟩ ∧
    hexToDecimalString (some (if logC1a.data = "" then "0x0" else logC1a.data)) =
      natToDecString (hexValBE ['0', '5']) ∧
    decodeLog logC1b = some ⟨logC1b.address, topicAddress (logC1b.topics.get? 1),
      topicAddress (logC1b.topics.get? 2), "0x1",
      some (hexToDecimalString (logC1b.topics.get? 3)), TransferStd.ERC721⟩ := by
  have h := c1_transfer_topic_disambiguation.2 logC1a topicC1 rfl (by decide)
  have hb := c1_transfer_topic_disambiguation.2 logC1b topicC1 rfl (by decide)
  exact ⟨h.1 rfl, h.2.2.1 ['0', '5'] (by decide) (by decide) (by decide),
    hb.2.1 rfl⟩

theorem nftEntryOf?_of_created {ch : SuiObjectChange}
    (h : ¬ch.type = some "transferred") : nftEntryOf? ch = none := by
  unfold nftEntryOf?
  rw [if_neg h]

theorem objChangeStep_foldl (changes : List SuiObjectChange) :
    ∀ acc : Nat × Nat × List NftXfer,
      changes.foldl objChangeStep acc =
        (acc.1 + changes.countP (fun c => decide (c.type = some "created")),
         acc.2.1 + changes.countP (fun c => decide (c.type = some "transferred")),
         acc.2.2 ++ changes.filterMap nftEntryOf?) := by
  induction changes with
  | nil => intro acc; simp
  | cons ch t ih =>
    intro acc
    rw [List.foldl_cons, ih]
    by_cases h1 : ch.type = some "created"
    · have h2 : ¬ch.type = some "transferred" := by
        rw [h1]; decide
      have hstep : objChangeStep acc ch = (acc.1 + 1, acc.2.1, acc.2.2) := by
        unfold objChangeStep
        rw [if_pos h1]
      rw [hstep, List.countP_cons, List.countP_cons, List.filterMap_cons,
        nftEntryOf?_of_created h2]
      simp [h1, h2]
      omega
    · by_cases h2 : ch.type = some "transferred"
      · have hstep : objChangeStep acc ch =
            (acc.1, acc.2.1 + 1, acc.2.2 ++ (nftEntryOf? ch).toList) := by
          unfold objChangeStep
          rw [if_neg h1, if_pos h2]
          unfold nftEntryOf?
          rw [if_pos h2]
          cases ho : ch.objectType with
          | none => simp
          | some ot =>
            by_cases hcond : ot ≠ "" ∧ containsSubChars "nft".data ot.data = true
            · simp [hcond.1, hcond.2]
            · simp only [hcond, if_false, Option.toList_none, List.append_nil]
        rw [hstep, List.countP_cons, List.countP_cons, List.filterMap_cons]
        cases hn : nftEntryOf? ch <;> simp [h1, h2, hn] <;> omega
      · have hstep : objChangeStep acc ch = acc := by
          unfold objChangeStep
          rw [if_neg h1, if_neg h2]
        rw [hstep, List.countP_cons, List.countP_cons, List.filterMap_cons,
          nftEntryOf?_of_created h2]
        simp [h1, h2]

theorem createdCount_eq_countP (tx : SuiTxBlock) :
    createdCount tx = (tx.objectChanges.getD []).countP
      (fun c => decide (c.type = some "created")) := by
  unfold createdCount
  rw [objChangeStep_foldl]
  simp

/-- C6: the classified action list is in append order — one action per
decoded transfer first, then (object-model only) exactly one
creation-summary action carrying the created count as a string amount when
that count is positive, then the NFT-transfer actions collected from the
object changes, then the call-interaction actions; the byte-oriented
classifier appends its single call interaction after the transfer actions;
and one fungible transfer + one call + created count 2 yields exactly
`[COIN_TRANSFER, OBJECT_CREATED, MOVE_CALL]`. -/
theorem c6_classifier_append_order :
    (∀ (tx : SuiTxBlock) (transfers : List CoinTransfer),
      classifyActionsSui tx transfers =
        transfers.map suiActionOfCoinTransfer ++
        (if 0 < (tx.objectChanges.getD []).countP
              (fun c => decide (c.type = some "created")) then
          [objectCreatedAction tx ((tx.objectChanges.getD []).countP
              (fun c => decide (c.type = some "created")))]
         else []) ++
        ((tx.objectChanges.getD []).filterMap nftEntryOf?).map nftActionOf ++
        suiCallActions tx.txData) ∧
    (∀ (tx : SuiTxBlock) (count : Nat),
      (objectCreatedAction tx count).type = SuiActionType.OBJECT_CREATED ∧
      (objectCreatedAction tx count).amount = some (natToDecString count)) ∧
    (∀ (tx : RpcTransaction) (transfers : List TokenTransfer),
      classifyActionsArb tx transfers =
        transfers.map arbActionOfTransfer ++
        (match tx.toAddr with
         | none => []
         | some t =>
           if tx.input ≠ "" ∧ tx.input ≠ "0x" then
             [⟨ArbActionType.CONTRACT_CALL, "contract interaction with " ++ t,
               some tx.fromAddr, some t, none, none, none⟩]
           else [])) ∧
    (classifyActionsSui suiTxC6 [coinC6]).map (fun a => a.type) =
      [SuiActionType.COIN_TRANSFER, SuiActionType.OBJECT_CREATED,
       SuiActionType.MOVE_CALL] := by
  refine ⟨fun tx transfers => ?_, fun tx count => ⟨rfl, rfl⟩,
    fun tx transfers => rfl, by decide⟩
  unfold classifyActionsSui
  rw [objChangeStep_foldl]
  simp

theorem natToDecString_ne_empty (n : Nat) : natToDecString n ≠ "" := by
  rw [← intToDecString_ofNat n]
  exact intToDecString_ne_empty _

theorem jsParseInt10?_natToDecString (n : Nat) :
    jsParseInt10? (natToDecString n) = some ((n : Nat) : Int) := by
  have hdata : (natToDecString n).data = natToDecCharsBE n := rfl
  unfold jsParseInt10?
  rw [hdata, jsTrimChars_natToDecCharsBE]
  have hne : natToDecCharsBE n ≠ [] := by
    intro he
    exact natToDecString_ne_empty n (congrArg String.mk he)
  obtain ⟨a, t, hat⟩ := List.exists_cons_of_ne_nil hne
  have hrange := natToDecCharsBE_mem_range n
  rw [hat] at hrange ⊢
  have ha := hrange a (by simp)
  have ha1 : a ≠ '-' := by intro h; subst h; simp at ha
  have ha2 : a ≠ '+' := by intro h; subst h; simp at ha
  simp only [ha1, ha2, if_false]
  unfold leadingDecimal?
  have htake : (a :: t).takeWhile (fun c => (decDigitVal? c).isSome) = a :: t := by
    apply List.takeWhile_eq_self_iff.mpr
    intro c hc
    have := hrange c hc
    simp [decDigitVal?, this.1, this.2]
  simp only [htake, List.isEmpty_cons, Bool.false_eq_true, if_false,
    Option.map_some']
  have hval : decCharsValBE (a :: t) = n := by
    rw [← hat]
    exact decCharsValBE_natToDecCharsBE n
  rw [hval]
  rfl

theorem suiCallActions_type (td : Option SuiTxData) :
    ∀ a ∈ suiCallActions td, a.type = SuiActionType.MOVE_CALL ∨
      a.type = SuiActionType.CONTRACT_CALL := by
  intro a ha
  unfold suiCallActions at ha
  split at ha
  · simp at ha
  · split at ha
    · simp at ha
    · obtain ⟨c, _, hc⟩ := List.mem_filterMap.mp ha
      obtain ⟨mc, _, rfl⟩ := Option.map_eq_some'.mp hc
      left
      rfl
    · split at ha
      · rcases List.mem_singleton.mp ha with rfl
        right
        rfl
      · simp at ha
    · rcases List.mem_singleton.mp ha with rfl
      right
      rfl

/-- The classifier output, decomposed into its four appended segments. -/
theorem classifyActionsSui_decomp (tx : SuiTxBlock) (transfers : List CoinTransfer) :
    classifyActionsSui tx transfers =
      transfers.map suiActionOfCoinTransfer ++
      (if 0 < createdCount tx then [objectCreatedAction tx (createdCount tx)]
       else []) ++
      ((tx.objectChanges.getD []).filterMap nftEntryOf?).map nftActionOf ++
      suiCallActions tx.txData := by
  unfold classifyActionsSui
  rw [objChangeStep_foldl]
  rw [createdCount_eq_countP]
  simp

theorem filter_created_of_map_ne {α : Type} (f : α → SuiAction) (l : List α)
    (h : ∀ x, (f x).type ≠ SuiActionType.OBJECT_CREATED) :
    (l.map f).filter (fun a => a.type = SuiActionType.OBJECT_CREATED) = [] := by
  apply List.filter_eq_nil_iff.mpr
  intro a ha
  obtain ⟨x, _, rfl⟩ := List.mem_map.mp ha
  simp [h x]

/-- C10: the `objectsCreated` count in the summary equals the number of
`created` object-change records, which is carried as a string in the amount
of the single `OBJECT_CREATED` action whenever positive; no `OBJECT_CREATED`
action is present when the count is zero. -/
theorem c10_objects_created_count (tx : SuiTxBlock) (res : SuiExplanationResult)
    (h : buildSuiExplanation tx = some res) :
    res.objectsCreated = some ((createdCount tx : Nat) : Int) ∧
    createdCount tx = (tx.objectChanges.getD []).countP
      (fun c => decide (c.type = some "created")) ∧
    (0 < createdCount tx →
      (res.actions.filter fun a => a.type = SuiActionType.OBJECT_CREATED) =
        [objectCreatedAction tx (createdCount tx)] ∧
      (objectCreatedAction tx (createdCount tx)).amount =
        some (natToDecString (createdCount tx)) ∧
      jsParseInt10? (natToDecString (createdCount tx)) =
        some ((createdCount tx : Nat) : Int)) ∧
    (createdCount tx = 0 →
      (res.actions.filter fun a => a.type = SuiActionType.OBJECT_CREATED) = []) := by
  unfold buildSuiExplanation at h
  obtain ⟨tot, htot, h⟩ := Option.bind_eq_some.mp h
  obtain rfl := Option.some_inj.mp h
  have hfilter : (classifyActionsSui tx (parseCoinTransfers tx.events)).filter
      (fun a => a.type = SuiActionType.OBJECT_CREATED) =
      (if 0 < createdCount tx then [objectCreatedAction tx (createdCount tx)]
       else []) := by
    rw [classifyActionsSui_decomp, List.filter_append, List.filter_append,
      List.filter_append]
    rw [filter_created_of_map_ne suiActionOfCoinTransfer _
      (fun x => by
        show SuiActionType.COIN_TRANSFER ≠ SuiActionType.OBJECT_CREATED
        decide)]
    rw [filter_created_of_map_ne nftActionOf _
      (fun x => by
        show SuiActionType.NFT_TRANSFER ≠ SuiActionType.OBJECT_CREATED
        decide)]
    have hcalls : (suiCallActions tx.txData).filter
        (fun a => a.type = SuiActionType.OBJECT_CREATED) = [] :=
      List.filter_eq_nil_iff.mpr (fun a ha => by
        rcases suiCallActions_type tx.txData a ha with hty | hty <;> simp [hty])
    rw [hcalls]
    by_cases hpos : 0 < createdCount tx
    · rw [if_pos hpos]
      have htype : (objectCreatedAction tx (createdCount tx)).type =
          SuiActionType.OBJECT_CREATED := rfl
      simp [List.filter, htype]
    · rw [if_neg hpos]
      simp
  refine ⟨?_, createdCount_eq_countP tx,
    fun hpos => ⟨?_, rfl, jsParseInt10?_natToDecString _⟩, fun hzero => ?_⟩
  · show objectsCreatedOf (classifyActionsSui tx (parseCoinTransfers tx.events)) = _
    unfold objectsCreatedOf
    rw [hfilter]
    by_cases hpos : 0 < createdCount tx
    · rw [if_pos hpos]
      simp only [List.foldl_cons, List.foldl_nil]
      have hdef : jsOrDefault ((objectCreatedAction tx (createdCount tx)).amount)
          "0" = natToDecString (createdCount tx) := by
        show jsOrDefault (some (natToDecString (createdCount tx))) "0" = _
        simp [jsOrDefault, natToDecString_ne_empty]
      rw [hdef, jsParseInt10?_natToDecString]
      simp
    · rw [if_neg hpos]
      have hz : createdCount tx = 0 := by omega
      simp [hz]
  · show (classifyActionsSui tx (parseCoinTransfers tx.events)).filter _ = _
    rw [hfilter, if_pos hpos]
  · show (classifyActionsSui tx (parseCoinTransfers tx.events)).filter _ = _
    rw [hfilter, if_neg (by omega)]

/-- Witness for C10 at a block with one created object. -/
theorem c10_objects_created_count_witness :
    buildSuiExplanation suiTxC10 = some resC10 ∧
    resC10.objectsCreated = some ((createdCount suiTxC10 : Nat) : Int) := by
  have h : buildSuiExplanation suiTxC10 = some resC10 := by decide
  exact ⟨h, (c10_objects_created_count suiTxC10 resC10 h).1⟩

/-- C7: in both handlers the explanations list of the assembled result has
exactly the length of the actions list, and `explanations[i]` is the
rendering of `actions[i]`. -/
theorem c7_explanations_positionally_aligned :
    (∀ (tx : SuiTxBlock) (res : SuiExplanationResult),
      buildSuiExplanation tx = some res →
      res.actionExplanations.length = res.actions.length ∧
      ∀ i, res.actionExplanations.get? i = (res.actions.get? i).map explainSui) ∧
    (∀ (tx : RpcTransaction) (receipt : Option RpcReceipt)
        (res : ArbExplanationResult),
      buildArbExplanation tx receipt = some res →
      res.actionExplanations.length = res.actions.length ∧
      ∀ i, res.actionExplanations.get? i = (res.actions.get? i).map explainArb) := by
  constructor
  · intro tx res h
    unfold buildSuiExplanation at h
    obtain ⟨tot, htot, h⟩ := Option.bind_eq_some.mp h
    obtain rfl := Option.some_inj.mp h
    exact ⟨List.length_map _ _, fun i => List.get?_map _ _ i⟩
  · intro tx receipt res h
    unfold buildArbExplanation at h
    obtain ⟨fee, hfee, h⟩ := Option.bind_eq_some.mp h
    obtain rfl := Option.some_inj.mp h
    exact ⟨List.length_map _ _, fun i => List.get?_map _ _ i⟩

/-- Witness for C7 on both handlers at concrete inputs. -/
theorem c7_explanations_positionally_aligned_witness :
    buildSuiExplanation suiTxC7 = some resC7 ∧
    resC7.actionExplanations.length = resC7.actions.length ∧
    buildArbExplanation txC2 none = some resC7arb ∧
    resC7arb.actionExplanations.length = resC7arb.actions.length := by
  have h1 : buildSuiExplanation suiTxC7 = some resC7 := by decide
  have h2 : buildArbExplanation txC2 none = some resC7arb := by decide
  exact ⟨h1, (c7_explanations_positionally_aligned.1 suiTxC7 resC7 h1).1, h2,
    (c7_explanations_positionally_aligned.2 txC2 none resC7arb h2).1⟩

end TxExplainer
